import Mathlib

/-!
# Verification of the Miri-GenMC adapter layer (`MiriInterface.hpp` / `MiriInterface.cpp`)

A shallow embedding of the C++ adapter that bridges Miri (the interpreter)
and GenMC (the model-checking engine).  Machine integers (`uint64_t`) are
modelled as `Nat` with explicit `% 2 ^ (8 * size)` where wrap-around matters;
fatal paths (`BUG_ON`, `ERROR_ON`, undefined behaviour) are modelled with
`Except Fatal`; engine reactions (which live outside the adapter) are passed
in as explicit parameters.
-/

namespace MiriGenmc

/-- The magic placeholder returned by `initValGetter` when no initial value is
recorded for an address (`SVal(0xCC00CC00)` in `MiriInterface.cpp`). -/
def NO_INIT_VALUE_PLACEHOLDER : Nat := 0xCC00CC00

/-- The magic placeholder returned by `initValGetter` when the recorded value is
uninitialized (`SVal(0xFF00FF00)` in `MiriInterface.cpp`). -/
def UNINIT_VALUE_PLACEHOLDER : Nat := 0xFF00FF00

/-- `GenmcScalar`: a value together with an explicit "is this initialized" flag
(spec §3 "Scalar Value").  The struct is declared on the Rust side of the cxx
bridge (`lib.rs.h`, not under `src/`); its fields `value`, `extra`, `is_init`
are exactly the ones the C++ adapter reads and writes. -/
structure GenmcScalar where
  value : Nat
  extra : Nat
  is_init : Bool
deriving DecidableEq, Repr

/-- Modelled from the spec: the implicit conversion `GenmcScalar(SVal v)` used
at call sites such as `handleMutexUnlock` (`SVal(0xDEADBEEF)`) is declared in
the cxx-bridge header, which is not under `src/`.  Per spec §3 a Scalar Value
carries a value and an initialized-flag; a scalar built from a concrete `SVal`
is initialized. -/
def GenmcScalar.ofSVal (v : Nat) : GenmcScalar := ⟨v, 0, true⟩

/-- `GenmcScalar::toSVal()`: project the (64-bit) payload. -/
def GenmcScalar.toSVal (s : GenmcScalar) : Nat := s.value

/-- GenMC `Event`: a (thread id, index) pair identifying a point in a thread's
local history.  Indices are C `int`s, so we use `Int`. -/
structure Event where
  thread : Int
  index : Int
deriving DecidableEq, Repr

/-- `Event::getInit()`. -/
def Event.getInit : Event := ⟨0, 0⟩

/-- GenMC `ActionKind` (declared in the engine, not under `src/`): the
next-instruction kind hint stored per thread.  The adapter only ever
constructs `Load` and stores whatever hint Miri passes in. -/
inductive ActionKind where
  | Load
  | NonLoad
deriving DecidableEq, Repr

/-- GenMC `Action`: per-thread record of (next-instruction kind hint, last
event), as stored in `globalInstructions`. -/
structure Action where
  kind : ActionKind
  event : Event
deriving DecidableEq, Repr

/-- `StoreEventType` (`MiriInterface.hpp`). -/
inductive StoreEventType where
  | Normal
  | ReadModifyWrite
  | CompareExchange
  | MutexUnlockWrite
deriving DecidableEq, Repr

/-- GenMC `MemOrdering` (engine header, not under `src/`): consumed opaquely
by the adapter, which only forwards it into labels. -/
inductive MemOrdering where
  | NotAtomic
  | Relaxed
  | Acquire
  | Release
  | AcquireRelease
  | SequentiallyConsistent
deriving DecidableEq, Repr

/-- GenMC `RMWBinOp` (engine header `Support/RMWOps.hpp`, not under `src/`):
the binary operator of a read-modify-write. -/
inductive RMWBinOp where
  | add
  | sub
  | and
  | or
  | xor
  | xchg
deriving DecidableEq, Repr

/-- Modelled from the spec: GenMC's `executeRMWBinOp` (engine code, not under
`src/`).  Spec §4.2: "the computed result is `old_value OP rhs_value`
evaluated with the same bit width as the operation's size — overflow wraps
modulo 2^(8·size)". -/
def executeRMWBinOp (oldVal rhs : Nat) (size : Nat) (op : RMWBinOp) : Nat :=
  let m := 2 ^ (8 * size)
  match op with
  | .add => (oldVal + rhs) % m
  | .sub => (oldVal + (m - rhs % m)) % m
  | .and => (Nat.land oldVal rhs) % m
  | .or => (Nat.lor oldVal rhs) % m
  | .xor => (Nat.xor oldVal rhs) % m
  | .xchg => rhs % m

/-- The spin-loop annotation attached to a mutex-lock read
(`handleMutexLock`): `NeExpr(Register(size * CHAR_BIT, annot_id),
Concrete(size * CHAR_BIT, SVal(1)))` with assume-type `Spinloop`.  We record
the register width, the annotation id and the compared constant. -/
structure SpinAnnot where
  regWidth : Nat
  regId : Nat
  neVal : Nat
deriving DecidableEq, Repr

/-- The graph labels the adapter constructs and hands to the engine, with the
fields the adapter itself fills in. -/
inductive Label where
  | readLab (pos : Event) (ord : MemOrdering) (addr size : Nat)
  | faiReadLab (pos : Event) (ord : MemOrdering) (addr size : Nat) (op : RMWBinOp) (rhs : Nat)
  | casReadLab (pos : Event) (ord : MemOrdering) (addr size : Nat) (expected newVal : Nat)
  | writeLab (pos : Event) (ord : MemOrdering) (addr size : Nat) (ty : StoreEventType) (value : Nat)
  | fenceLab (pos : Event) (ord : MemOrdering)
  | mallocLab (pos : Event) (size alignment : Nat)
  | freeLab (pos : Event) (addr size : Nat)
  | threadCreateLab (pos : Event) (childId parentId : Nat)
  | threadJoinLab (pos : Event) (childId : Nat)
  | threadFinishLab (pos : Event) (retVal : Nat)
  | userBlockLab (pos : Event)
  | lockCasReadLab (pos : Event) (addr size : Nat) (annot : SpinAnnot)
  | lockCasWriteLab (pos : Event) (addr size : Nat)
  | trylockCasReadLab (pos : Event) (addr size : Nat)
  | trylockCasWriteLab (pos : Event) (addr size : Nat)
  | lockNotAcqBlockLab (pos : Event)
deriving DecidableEq, Repr

/-- The position a label was created at. -/
def Label.pos : Label → Event
  | .readLab p .. => p
  | .faiReadLab p .. => p
  | .casReadLab p .. => p
  | .writeLab p .. => p
  | .fenceLab p .. => p
  | .mallocLab p .. => p
  | .freeLab p .. => p
  | .threadCreateLab p .. => p
  | .threadJoinLab p .. => p
  | .threadFinishLab p .. => p
  | .userBlockLab p .. => p
  | .lockCasReadLab p .. => p
  | .lockCasWriteLab p .. => p
  | .trylockCasReadLab p .. => p
  | .trylockCasWriteLab p .. => p
  | .lockNotAcqBlockLab p .. => p

/-- Whether a label marks the issuing thread as blocked (handed to
`GenMCDriver::handleBlock`). -/
def Label.isBlock : Label → Bool
  | .userBlockLab _ => true
  | .lockNotAcqBlockLab _ => true
  | _ => false

/-- Fatal termination of the adapter: `BUG_ON` / `BUG` assertions, `ERROR_ON`
checks, or undefined behaviour (dereferencing an absent error object,
out-of-bounds unchecked indexing). -/
inductive Fatal where
  | bugOn (msg : String)
  | errorOn (msg : String)
  | nullErrorDeref
  | oobIndex
deriving DecidableEq, Repr

/-- Engine reaction to a submitted read label.  This is the cxx-bridge
`LoadResult` (declared outside `src/`), whose members `error` (an owning
pointer, only set in the error case), `is_read_opt` and `scalar` are the ones
the adapter reads.  Spec §4.2 Load: "the engine returns either an observed
Scalar Value, a `no value could be resolved — thread must be blocked`
indicator, or an error" — the three outcomes are disjoint: the observed-value
case is `error = none` and `is_read_opt = false`. -/
structure LoadResult where
  error : Option String
  is_read_opt : Bool
  scalar : GenmcScalar
deriving DecidableEq, Repr

/-- `LoadResult::is_error()`. -/
def LoadResult.isError (r : LoadResult) : Bool := r.error.isSome

/-- Modelled from the spec: `LoadResult::has_value()` (cxx-bridge helper, not
under `src/`) — true exactly for the observed-Scalar-Value outcome of §4.2,
i.e. neither an error nor the "no value could be resolved" indicator. -/
def LoadResult.hasValue (r : LoadResult) : Bool := r.error.isNone && !r.is_read_opt

/-- `LoadResult::getValue()`: the observed scalar's payload. -/
def LoadResult.getValue (r : LoadResult) : Nat := r.scalar.toSVal

/-- Engine reaction to a submitted store label (cxx-bridge `StoreResult`):
success (with the co-maximality flag) or an error. -/
inductive StoreResult where
  | ok (isCoMaxWrite : Bool)
  | error (msg : String)
deriving DecidableEq, Repr

/-- `StoreResult::is_error()`. -/
def StoreResult.isError : StoreResult → Bool
  | .error _ => true
  | _ => false

/-- The label kind the engine's graph reports as coherence-order maximal for
an address when `handleOldVal` inspects it: a `WriteLabel` (atomic or not,
with its stored value), the address's `InitLabel`, or any other label. -/
inductive CoMaxLabel where
  | writeLabel (isAtomic : Bool) (val : Nat)
  | initLabel
  | otherLabel
deriving DecidableEq, Repr

/-- The adapter state owned by `MiriGenMCShim`: the per-thread `Action` table
`globalInstructions`, the initial-value table `initVals_`, and the
mutex-annotation table `annotation_id` with its counter. -/
structure ShimState where
  globalInstructions : List Action
  initVals : List (Nat × GenmcScalar)
  annotationId : List (Nat × Nat)
  annotationIdCounter : Nat
deriving DecidableEq, Repr

/-- The state right after the `MiriGenMCShim` constructor: one `Action` for
the initial thread, `(ActionKind::Load, Event::getInit())`, and empty
tables. -/
def ShimState.initial : ShimState :=
  ⟨[⟨.Load, .getInit⟩], [], [], 0⟩

/-- Lookup in the initial-value table (`std::unordered_map::contains` /
`operator[]`). -/
def lookupInit (m : List (Nat × GenmcScalar)) (a : Nat) : Option GenmcScalar :=
  (m.find? (fun p => p.1 = a)).map (fun p => p.2)

/-- `std::unordered_map::insert(make_pair(a, v))`: inserts only when no entry
for `a` exists; returns the new map, the value stored at `a` after the call
(`(*result.first).second`), and whether insertion took place
(`result.second`). -/
def mapInsert (m : List (Nat × GenmcScalar)) (a : Nat) (v : GenmcScalar) :
    List (Nat × GenmcScalar) × GenmcScalar × Bool :=
  match lookupInit m a with
  | some w => (m, w, false)
  | none => ((a, v) :: m, v, true)

/-- Result of one `handleOldVal` call: the updated initial-value table, the
value written in place into a still-mutable non-atomic co-maximal write (if
any), and whether a `BUG` / `BUG_ON` assertion fired. -/
structure OldValEffect where
  initVals : List (Nat × GenmcScalar)
  overwrittenVal : Option Nat
  bug : Bool
deriving DecidableEq, Repr

/-- `MiriGenMCShim::handleOldVal` (`MiriInterface.hpp`): inspect the
coherence-order-maximal label of the address; for a non-atomic `WriteLabel`
and an initialized candidate, overwrite the write's value in place; for an
`InitLabel` and an initialized candidate, `insert` into `initVals_` and
assert `BUG_ON(result.second && (*result.first).second != value)`; for any
other label, `BUG()`. -/
def handleOldVal (initVals : List (Nat × GenmcScalar)) (addr : Nat)
    (coMax : CoMaxLabel) (value : GenmcScalar) : OldValEffect :=
  match coMax with
  | .writeLabel isAtomic _ =>
      if !value.is_init then
        ⟨initVals, none, false⟩
      else if !isAtomic then
        ⟨initVals, some value.toSVal, false⟩
      else
        ⟨initVals, none, false⟩
  | .initLabel =>
      if value.is_init then
        match mapInsert initVals addr value with
        | (m, stored, inserted) => ⟨m, none, inserted && stored ≠ value⟩
      else
        ⟨initVals, none, false⟩
  | .otherLabel => ⟨initVals, none, true⟩

/-- The `initValGetter` lambda registered with the engine's graph
(`MiriInterface.cpp`): look up the address; no entry gives the
`0xCC00CC00` placeholder, an uninitialized entry gives the `0xFF00FF00`
placeholder, otherwise the stored value. -/
def initValGetter (initVals : List (Nat × GenmcScalar)) (addr : Nat) : Nat :=
  match lookupInit initVals addr with
  | none => NO_INIT_VALUE_PLACEHOLDER
  | some result =>
      if !result.is_init then UNINIT_VALUE_PLACEHOLDER
      else result.toSVal

/-- The outcome of one adapter handler: the updated shim state, the labels
handed to the engine (in submission order), the old-value candidates captured
by the `oldValSetter` callbacks passed alongside them (in the same order),
and the value returned to Miri. -/
structure HandlerOut (α : Type) where
  state : ShimState
  submitted : List Label
  oldValSuppliers : List GenmcScalar
  result : α
deriving Repr

/-- `MiriGenMCShim::incPos` (`MiriInterface.hpp`): bounds-checked
(`ERROR_ON`) pre-increment of the thread's event. -/
def incPos (s : ShimState) (tid : Nat) : Except Fatal (Event × ShimState) :=
  match s.globalInstructions[tid]? with
  | some a =>
      let e : Event := ⟨a.event.thread, a.event.index + 1⟩
      .ok (e, { s with globalInstructions := s.globalInstructions.set tid ⟨a.kind, e⟩ })
  | none => .error (.errorOn "ThreadId out of bounds")

/-- `MiriGenMCShim::decPos` (`MiriInterface.hpp`): bounds-checked
(`ERROR_ON`) pre-decrement of the thread's event. -/
def decPos (s : ShimState) (tid : Nat) : Except Fatal (Event × ShimState) :=
  match s.globalInstructions[tid]? with
  | some a =>
      let e : Event := ⟨a.event.thread, a.event.index - 1⟩
      .ok (e, { s with globalInstructions := s.globalInstructions.set tid ⟨a.kind, e⟩ })
  | none => .error (.errorOn "ThreadId out of bounds")

/-- The unchecked `++globalInstructions[thread_id].event` used by the mutex
handlers; indexing outside the table is undefined behaviour. -/
def incPosUnchecked (s : ShimState) (tid : Nat) : Except Fatal (Event × ShimState) :=
  match s.globalInstructions[tid]? with
  | some a =>
      let e : Event := ⟨a.event.thread, a.event.index + 1⟩
      .ok (e, { s with globalInstructions := s.globalInstructions.set tid ⟨a.kind, e⟩ })
  | none => .error .oobIndex

/-- The unchecked `--currPos` used by the mutex handlers. -/
def decPosUnchecked (s : ShimState) (tid : Nat) : Except Fatal (Event × ShimState) :=
  match s.globalInstructions[tid]? with
  | some a =>
      let e : Event := ⟨a.event.thread, a.event.index - 1⟩
      .ok (e, { s with globalInstructions := s.globalInstructions.set tid ⟨a.kind, e⟩ })
  | none => .error .oobIndex

/-- The event index currently stored for a thread (0 when unregistered). -/
def threadIndex (s : ShimState) (tid : Nat) : Int :=
  ((s.globalInstructions[tid]?).map (fun a => a.event.index)).getD 0

/-- The state produced by writing event index `idx` into thread `tid`'s
`Action` slot `a` (the effect of the `++`/`--` position operators). -/
def setThreadEvent (s : ShimState) (tid : Nat) (a : Action) (idx : Int) : ShimState :=
  { s with globalInstructions :=
      s.globalInstructions.set tid ⟨a.kind, ⟨a.event.thread, idx⟩⟩ }

/-- The labels of a handler call that were committed on a thread: the
submitted labels whose position was not rolled back (their index is at most
the thread's final event index). -/
def committedLabels (out : HandlerOut α) (tid : Nat) : List Label :=
  out.submitted.filter (fun l => decide ((Label.pos l).index ≤ threadIndex out.state tid))

/-- `MiriGenMCShim::handleLoad`: advance the position, build a `ReadLabel`,
submit it with an `oldValSetter` capturing `old_val`, and return the engine's
result unchanged. -/
def handleLoad (s : ShimState) (thread_id addr size : Nat) (ord : MemOrdering)
    (old_val : GenmcScalar) (loadRes : LoadResult) :
    Except Fatal (HandlerOut LoadResult) := do
  let (pos, s1) ← incPos s thread_id
  let newLab := Label.readLab pos ord addr size
  .ok ⟨s1, [newLab], [old_val], loadRes⟩

/-- `MiriGenMCShim::handleStore`: advance the position, build the write label
whose kind is selected by `store_event_type`, submit it with an
`oldValSetter` capturing `old_val`, and return the engine's result. -/
def handleStore (s : ShimState) (thread_id addr size : Nat)
    (value old_val : GenmcScalar) (ord : MemOrdering) (ty : StoreEventType)
    (storeRes : StoreResult) : Except Fatal (HandlerOut StoreResult) := do
  let (pos, s1) ← incPos s thread_id
  let wLab := Label.writeLab pos ord addr size ty value.toSVal
  .ok ⟨s1, [wLab], [old_val], storeRes⟩

/-- `MiriGenMCShim::handleFence`: advance the position and submit a
`FenceLabel`. -/
def handleFence (s : ShimState) (thread_id : Nat) (ord : MemOrdering) :
    Except Fatal (HandlerOut Unit) := do
  let (pos, s1) ← incPos s thread_id
  .ok ⟨s1, [Label.fenceLab pos ord], [], ()⟩

/-- `MiriGenMCShim::handleMalloc`: `BUG_ON(size == 0)`, advance the position,
submit a `MallocLabel`, `BUG_ON` a null engine-returned address, and return
the address. -/
def handleMalloc (s : ShimState) (thread_id : Nat) (size alignment : Nat)
    (engineAddr : Nat) : Except Fatal (HandlerOut Nat) := do
  if size = 0 then .error (.bugOn "size == 0") else do
  let (pos, s1) ← incPos s thread_id
  let aLab := Label.mallocLab pos size alignment
  if engineAddr = 0 then .error (.bugOn "retVal.get() == 0") else
  .ok ⟨s1, [aLab], [], engineAddr⟩

/-- `MiriGenMCShim::handleFree`: `BUG_ON(size == 0)`, `BUG_ON` a null
address, advance the position, submit a `FreeLabel`. -/
def handleFree (s : ShimState) (thread_id : Nat) (addr size : Nat) :
    Except Fatal (HandlerOut Unit) := do
  if size = 0 then .error (.bugOn "size == 0") else
  if addr = 0 then .error (.bugOn "addr.get() == 0") else do
  let (pos, s1) ← incPos s thread_id
  .ok ⟨s1, [Label.freeLab pos addr size], [], ()⟩

/-- `MiriGenMCShim::handleThreadCreate`: advance the parent's position,
submit a `ThreadCreateLabel`; the engine returns the graph-assigned child id
(`genmcTid`), which must equal `thread_id` (`BUG_ON` otherwise, likewise for
`-1` and for an id beyond the table's size); then register or reset the
child's `Action` at position zero. -/
def handleThreadCreate (s : ShimState) (thread_id parent_id : Nat)
    (genmcTid : Int) : Except Fatal (HandlerOut Unit) := do
  let (pos, s1) ← incPos s parent_id
  let tcLab := Label.threadCreateLab pos thread_id parent_id
  if genmcTid ≠ (thread_id : Int) then .error (.bugOn "genmcTid != thread_id") else
  if genmcTid = -1 then .error (.bugOn "genmcTid == -1") else
  if genmcTid > (s1.globalInstructions.length : Int) then
    .error (.bugOn "genmcTid > globalInstructions.size()") else
  if thread_id ≥ s1.globalInstructions.length then
    .ok ⟨{ s1 with globalInstructions :=
             s1.globalInstructions ++ [⟨.Load, ⟨(thread_id : Int), 0⟩⟩] },
         [tcLab], [], ()⟩
  else
    .ok ⟨{ s1 with globalInstructions :=
             s1.globalInstructions.set thread_id ⟨.Load, ⟨(thread_id : Int), 0⟩⟩ },
         [tcLab], [], ()⟩

/-- `MiriGenMCShim::handleThreadJoin`: advance the parent's position, submit
a `ThreadJoinLabel`; when the engine resolves no value (the child has not
finished), retreat the parent's position. -/
def handleThreadJoin (s : ShimState) (thread_id child_id : Nat)
    (joinRes : Option Nat) : Except Fatal (HandlerOut Unit) := do
  let (pos, s1) ← incPos s thread_id
  let lab := Label.threadJoinLab pos child_id
  match joinRes with
  | some _ => .ok ⟨s1, [lab], [], ()⟩
  | none => do
      let (_, s2) ← decPos s1 thread_id
      .ok ⟨s2, [lab], [], ()⟩

/-- `MiriGenMCShim::handleThreadFinish`: advance the position and submit a
`ThreadFinishLabel` carrying the return value. -/
def handleThreadFinish (s : ShimState) (thread_id : Nat) (ret_val : Nat) :
    Except Fatal (HandlerOut Unit) := do
  let (pos, s1) ← incPos s thread_id
  .ok ⟨s1, [Label.threadFinishLab pos ret_val], [], ()⟩

/-- `MiriGenMCShim::handleUserBlock`: advance the position and submit a
`UserBlockLabel`. -/
def handleUserBlock (s : ShimState) (thread_id : Nat) :
    Except Fatal (HandlerOut Unit) := do
  let (pos, s1) ← incPos s thread_id
  .ok ⟨s1, [Label.userBlockLab pos], [], ()⟩

/-- `ReadModifyWriteResult` (cxx-bridge): either the observed old value, the
computed new value and the co-maximality flag, or an error. -/
inductive ReadModifyWriteResult where
  | ok (oldVal newVal : Nat) (isCoMaxWrite : Bool)
  | fromError (msg : String)
deriving DecidableEq, Repr

/-- `MiriGenMCShim::handleReadModifyWrite`: advance the position, submit a
`FaiReadLabel` carrying the operator and right-hand operand; on a read error
return it; otherwise compute `executeRMWBinOp(oldVal, rhsVal, size, rmw_op)`
and issue the store via `handleStore` with kind `ReadModifyWrite`,
propagating a store error. -/
def handleReadModifyWrite (s : ShimState) (thread_id addr size : Nat)
    (loadOrd store_ordering : MemOrdering) (rmw_op : RMWBinOp)
    (rhs_value old_val : GenmcScalar) (loadRes : LoadResult)
    (storeRes : StoreResult) : Except Fatal (HandlerOut ReadModifyWriteResult) := do
  let (pos, s1) ← incPos s thread_id
  let rhsVal := rhs_value.toSVal
  let newLab := Label.faiReadLab pos loadOrd addr size rmw_op rhsVal
  match loadRes.error with
  | some e => .ok ⟨s1, [newLab], [old_val], .fromError e⟩
  | none =>
      let oldVal := loadRes.scalar.toSVal
      let newVal := executeRMWBinOp oldVal rhsVal size rmw_op
      do
      let out ← handleStore s1 thread_id addr size (GenmcScalar.ofSVal newVal)
          old_val store_ordering .ReadModifyWrite storeRes
      match out.result with
      | .error e =>
          .ok ⟨out.state, newLab :: out.submitted, old_val :: out.oldValSuppliers,
               .fromError e⟩
      | .ok isCoMax =>
          .ok ⟨out.state, newLab :: out.submitted, old_val :: out.oldValSuppliers,
               .ok oldVal newVal isCoMax⟩

/-- `CompareExchangeResult` (cxx-bridge): constructed via the `success`,
`failure` and `fromError` helpers the adapter calls. -/
inductive CompareExchangeResult where
  | success (oldVal : Nat) (isCoMaxWrite : Bool)
  | failure (oldVal : Nat)
  | fromError (msg : String)
deriving DecidableEq, Repr

/-- `MiriGenMCShim::handleCompareExchange`: advance the position, submit a
`CasReadLabel` carrying the expected and new values; on a read error return
it; if the observed value differs from the expected one return
`failure(oldVal)` without a store; otherwise issue the store via
`handleStore` with kind `CompareExchange`, propagating a store error, and
return `success(oldVal, isCoMaxWrite)`. -/
def handleCompareExchange (s : ShimState) (thread_id addr size : Nat)
    (expected_value new_value old_val : GenmcScalar)
    (success_load_ordering success_store_ordering fail_load_ordering : MemOrdering)
    (can_fail_spuriously : Bool) (loadRes : LoadResult) (storeRes : StoreResult) :
    Except Fatal (HandlerOut CompareExchangeResult) := do
  let (pos, s1) ← incPos s thread_id
  let expectedVal := expected_value.toSVal
  let newVal := new_value.toSVal
  let newLab := Label.casReadLab pos success_load_ordering addr size expectedVal newVal
  match loadRes.error with
  | some e => .ok ⟨s1, [newLab], [old_val], .fromError e⟩
  | none =>
      let oldVal := loadRes.scalar.toSVal
      if oldVal ≠ expectedVal then
        .ok ⟨s1, [newLab], [old_val], .failure oldVal⟩
      else do
        let out ← handleStore s1 thread_id addr size (GenmcScalar.ofSVal newVal)
            old_val success_store_ordering .CompareExchange storeRes
        match out.result with
        | .error e =>
            .ok ⟨out.state, newLab :: out.submitted, old_val :: out.oldValSuppliers,
                 .fromError e⟩
        | .ok isCoMax =>
            .ok ⟨out.state, newLab :: out.submitted, old_val :: out.oldValSuppliers,
                 .success oldVal isCoMax⟩

/-- `MutexLockResult` (`MiriInterface.hpp`): the acquired flag plus an
optional error. -/
structure MutexLockResult where
  is_lock_acquired : Bool
  error : Option String
deriving DecidableEq, Repr

/-- The `MutexLockResult(bool)` constructor: no error. -/
def MutexLockResult.acquired (b : Bool) : MutexLockResult := ⟨b, none⟩

/-- `MutexLockResult::fromError`. -/
def MutexLockResult.fromError (e : String) : MutexLockResult := ⟨false, some e⟩

/-- The annotation-id lookup at the top of `handleMutexLock`: reuse the id
recorded for the address, otherwise assign `annotation_id_counter++` and
record it. -/
def getOrAssignAnnot (s : ShimState) (addr : Nat) : Nat × ShimState :=
  match (s.annotationId.find? (fun p => p.1 = addr)) with
  | some p => (p.2, s)
  | none =>
      (s.annotationIdCounter,
       { s with annotationId := (addr, s.annotationIdCounter) :: s.annotationId,
                annotationIdCounter := s.annotationIdCounter + 1 })

/-- `MiriGenMCShim::handleMutexLock`: look up or assign the address's
annotation id, advance the position and submit a `LockCasReadLabel` tagged
with the spin-loop annotation (asserting the register of width
`size * CHAR_BIT` differs from 1); the `oldValSetter` captures `SVal(0)`.
On a read error or an unresolved read, retreat the position and report the
error or `not acquired`; on observed value 0 submit a `LockCasWriteLabel`
(surfacing a store error); otherwise submit a `LockNotAcqBlockLabel`. -/
def handleMutexLock (s : ShimState) (thread_id addr size : Nat)
    (loadRes : LoadResult) (storeRes : StoreResult) :
    Except Fatal (HandlerOut MutexLockResult) := do
  let (annot_id, s0) := getOrAssignAnnot s addr
  let annot : SpinAnnot := ⟨size * 8, annot_id, 1⟩
  let (pos1, s1) ← incPosUnchecked s0 thread_id
  let rLab := Label.lockCasReadLab pos1 addr size annot
  let suppliedOld := GenmcScalar.ofSVal 0
  match loadRes.error with
  | some e => do
      let (_, s2) ← decPosUnchecked s1 thread_id
      .ok ⟨s2, [rLab], [suppliedOld], .fromError e⟩
  | none =>
      if loadRes.is_read_opt then do
        let (_, s2) ← decPosUnchecked s1 thread_id
        .ok ⟨s2, [rLab], [suppliedOld], .acquired false⟩
      else
        let is_lock_acquired := loadRes.getValue = 0
        if is_lock_acquired then do
          let (pos2, s2) ← incPosUnchecked s1 thread_id
          let wLab := Label.lockCasWriteLab pos2 addr size
          match storeRes with
          | .error e =>
              .ok ⟨s2, [rLab, wLab], [suppliedOld, suppliedOld], .fromError e⟩
          | .ok _ =>
              .ok ⟨s2, [rLab, wLab], [suppliedOld, suppliedOld], .acquired true⟩
        else do
          let (pos2, s2) ← incPosUnchecked s1 thread_id
          .ok ⟨s2, [rLab, Label.lockNotAcqBlockLab pos2], [suppliedOld],
               .acquired false⟩

/-- `MiriGenMCShim::handleMutexTryLock`: advance the position and submit a
`TrylockCasReadLabel` (no spin-loop annotation); the `oldValSetter` captures
`SVal(0)`.  When the load has no value, retreat the position and build the
result from `*loadResult.error` — which dereferences the absent error object
when the read merely resolved no value.  On observed value 0 submit a
`TrylockCasWriteLabel` (surfacing a store error); otherwise report not
acquired with no further label. -/
def handleMutexTryLock (s : ShimState) (thread_id addr size : Nat)
    (loadRes : LoadResult) (storeRes : StoreResult) :
    Except Fatal (HandlerOut MutexLockResult) := do
  let (pos1, s1) ← incPosUnchecked s thread_id
  let rLab := Label.trylockCasReadLab pos1 addr size
  let suppliedOld := GenmcScalar.ofSVal 0
  if !loadRes.hasValue then do
    let (_, s2) ← decPosUnchecked s1 thread_id
    match loadRes.error with
    | some e => .ok ⟨s2, [rLab], [suppliedOld], .fromError e⟩
    | none => .error .nullErrorDeref
  else
    let is_lock_acquired := loadRes.getValue = 0
    if !is_lock_acquired then
      .ok ⟨s1, [rLab], [suppliedOld], .acquired false⟩
    else do
      let (pos2, s2) ← incPosUnchecked s1 thread_id
      let wLab := Label.trylockCasWriteLab pos2 addr size
      match storeRes with
      | .error e =>
          .ok ⟨s2, [rLab, wLab], [suppliedOld, suppliedOld], .fromError e⟩
      | .ok _ =>
          .ok ⟨s2, [rLab, wLab], [suppliedOld, suppliedOld], .acquired true⟩

/-- `MiriGenMCShim::handleMutexUnlock`: a `handleStore` of `SVal(0)` with
release ordering and kind `MutexUnlockWrite`, with claimed old value
`SVal(0xDEADBEEF)`. -/
def handleMutexUnlock (s : ShimState) (thread_id addr size : Nat)
    (storeRes : StoreResult) : Except Fatal (HandlerOut StoreResult) :=
  handleStore s thread_id addr size (GenmcScalar.ofSVal 0)
    (GenmcScalar.ofSVal 0xDEADBEEF) .Release .MutexUnlockWrite storeRes

/-- `MiriGenMCShim::scheduleNext`: overwrite the current thread's
instruction-kind hint (unchecked indexing), forward `globalInstructions` to
the engine's scheduler, and translate its answer: a chosen thread id, or
`-1` when the engine reports none. -/
def scheduleNext (s : ShimState) (curr_thread_id : Nat) (kind : ActionKind)
    (engineChoice : Option Nat) : Except Fatal (ShimState × Int) :=
  match s.globalInstructions[curr_thread_id]? with
  | some a =>
      let s1 := { s with globalInstructions :=
                    s.globalInstructions.set curr_thread_id ⟨kind, a.event⟩ }
      match engineChoice with
      | some t => .ok (s1, Int.ofNat t)
      | none => .ok (s1, -1)
  | none => .error .oobIndex

/-- One adapter operation issued on a fixed thread, with the engine's
reaction to each label it submits recorded inside the operation. -/
inductive AdapterOp where
  | load (addr size : Nat) (ord : MemOrdering) (old_val : GenmcScalar) (res : LoadResult)
  | store (addr size : Nat) (value old_val : GenmcScalar) (ord : MemOrdering)
      (ty : StoreEventType) (res : StoreResult)
  | rmw (addr size : Nat) (lo so : MemOrdering) (op : RMWBinOp)
      (rhs old_val : GenmcScalar) (lres : LoadResult) (sres : StoreResult)
  | cas (addr size : Nat) (expected new old_val : GenmcScalar)
      (o1 o2 o3 : MemOrdering) (w : Bool) (lres : LoadResult) (sres : StoreResult)
  | fence (ord : MemOrdering)
  | malloc (size alignment engineAddr : Nat)
  | free (addr size : Nat)
  | mutexLock (addr size : Nat) (lres : LoadResult) (sres : StoreResult)
  | mutexTryLock (addr size : Nat) (lres : LoadResult) (sres : StoreResult)
  | mutexUnlock (addr size : Nat) (sres : StoreResult)
  | threadJoin (child : Nat) (res : Option Nat)
  | threadFinish (ret : Nat)
  | userBlock
deriving Repr

/-- Dispatch one operation on thread `tid`, keeping the final state and the
labels submitted to the engine. -/
def runOp (s : ShimState) (tid : Nat) : AdapterOp → Except Fatal (ShimState × List Label)
  | .load addr size ord old_val res =>
      (handleLoad s tid addr size ord old_val res).map (fun out => (out.state, out.submitted))
  | .store addr size value old_val ord ty res =>
      (handleStore s tid addr size value old_val ord ty res).map
        (fun out => (out.state, out.submitted))
  | .rmw addr size lo so op rhs old_val lres sres =>
      (handleReadModifyWrite s tid addr size lo so op rhs old_val lres sres).map
        (fun out => (out.state, out.submitted))
  | .cas addr size expected new old_val o1 o2 o3 w lres sres =>
      (handleCompareExchange s tid addr size expected new old_val o1 o2 o3 w lres sres).map
        (fun out => (out.state, out.submitted))
  | .fence ord =>
      (handleFence s tid ord).map (fun out => (out.state, out.submitted))
  | .malloc size alignment engineAddr =>
      (handleMalloc s tid size alignment engineAddr).map (fun out => (out.state, out.submitted))
  | .free addr size =>
      (handleFree s tid addr size).map (fun out => (out.state, out.submitted))
  | .mutexLock addr size lres sres =>
      (handleMutexLock s tid addr size lres sres).map (fun out => (out.state, out.submitted))
  | .mutexTryLock addr size lres sres =>
      (handleMutexTryLock s tid addr size lres sres).map (fun out => (out.state, out.submitted))
  | .mutexUnlock addr size sres =>
      (handleMutexUnlock s tid addr size sres).map (fun out => (out.state, out.submitted))
  | .threadJoin child res =>
      (handleThreadJoin s tid child res).map (fun out => (out.state, out.submitted))
  | .threadFinish ret =>
      (handleThreadFinish s tid ret).map (fun out => (out.state, out.submitted))
  | .userBlock =>
      (handleUserBlock s tid).map (fun out => (out.state, out.submitted))

/-- The number of labels of one call committed on `tid`: the submitted labels
whose event index was not rolled back past by a retreat. -/
def keptCount (labs : List Label) (s1 : ShimState) (tid : Nat) : Nat :=
  (labs.filter (fun l => decide ((Label.pos l).index ≤ threadIndex s1 tid))).length

/-- Run a sequence of operations on one thread, accumulating the number of
committed events. -/
def runOps (s : ShimState) (tid : Nat) : List AdapterOp → Except Fatal (ShimState × Nat)
  | [] => .ok (s, 0)
  | op :: ops => do
      let (s1, labs) ← runOp s tid op
      let (s2, n) ← runOps s1 tid ops
      .ok (s2, keptCount labs s1 tid + n)

/-! ## Helper lemmas -/

lemma getElem?_some_lt {l : List Action} {i : Nat} {a : Action}
    (h : l[i]? = some a) : i < l.length := by
  by_contra hc
  rw [List.getElem?_eq_none (Nat.le_of_not_lt hc)] at h
  exact Option.noConfusion h

lemma getElem?_set_self {l : List Action} {i : Nat} {a b : Action}
    (h : l[i]? = some a) : (l.set i b)[i]? = some b :=
  List.getElem?_set_eq_of_lt b (getElem?_some_lt h)

lemma threadIndex_of_some {s : ShimState} {tid : Nat} {a : Action}
    (h : s.globalInstructions[tid]? = some a) : threadIndex s tid = a.event.index := by
  simp [threadIndex, h]

lemma incPos_ok {s : ShimState} {tid : Nat} {a : Action}
    (h : s.globalInstructions[tid]? = some a) :
    incPos s tid = .ok (⟨a.event.thread, a.event.index + 1⟩,
      setThreadEvent s tid a (a.event.index + 1)) := by
  simp [incPos, h, setThreadEvent]

lemma decPos_ok {s : ShimState} {tid : Nat} {a : Action}
    (h : s.globalInstructions[tid]? = some a) :
    decPos s tid = .ok (⟨a.event.thread, a.event.index - 1⟩,
      setThreadEvent s tid a (a.event.index - 1)) := by
  simp [decPos, h, setThreadEvent]

lemma incPosUnchecked_ok {s : ShimState} {tid : Nat} {a : Action}
    (h : s.globalInstructions[tid]? = some a) :
    incPosUnchecked s tid = .ok (⟨a.event.thread, a.event.index + 1⟩,
      setThreadEvent s tid a (a.event.index + 1)) := by
  simp [incPosUnchecked, h, setThreadEvent]

lemma decPosUnchecked_ok {s : ShimState} {tid : Nat} {a : Action}
    (h : s.globalInstructions[tid]? = some a) :
    decPosUnchecked s tid = .ok (⟨a.event.thread, a.event.index - 1⟩,
      setThreadEvent s tid a (a.event.index - 1)) := by
  simp [decPosUnchecked, h, setThreadEvent]

lemma setThreadEvent_getElem? {s : ShimState} {tid : Nat} {a : Action}
    (h : s.globalInstructions[tid]? = some a) (b : Action) (idx : Int) :
    (setThreadEvent s tid b idx).globalInstructions[tid]? =
      some ⟨b.kind, ⟨b.event.thread, idx⟩⟩ :=
  getElem?_set_self h

lemma setThreadEvent_setThreadEvent (s : ShimState) (tid : Nat) (a : Action)
    (idx1 idx2 : Int) :
    setThreadEvent (setThreadEvent s tid a idx1) tid ⟨a.kind, ⟨a.event.thread, idx1⟩⟩ idx2 =
      setThreadEvent s tid a idx2 := by
  simp [setThreadEvent, List.set_set]

lemma threadIndex_setThreadEvent {s : ShimState} {tid : Nat} {a : Action}
    (h : s.globalInstructions[tid]? = some a) (b : Action) (idx : Int) :
    threadIndex (setThreadEvent s tid b idx) tid = idx := by
  simp [threadIndex, setThreadEvent, getElem?_set_self h]

lemma getOrAssignAnnot_globalInstructions (s : ShimState) (addr : Nat) :
    (getOrAssignAnnot s addr).2.globalInstructions = s.globalInstructions := by
  unfold getOrAssignAnnot
  cases s.annotationId.find? (fun p => p.1 = addr) <;> rfl

lemma lookupInit_cons_ne {m : List (Nat × GenmcScalar)} {a b : Nat}
    {v : GenmcScalar} (h : b ≠ a) :
    lookupInit ((b, v) :: m) a = lookupInit m a := by
  simp [lookupInit, List.find?, h]

lemma handleOldVal_initVals (m : List (Nat × GenmcScalar)) (addr2 : Nat)
    (coMax : CoMaxLabel) (value : GenmcScalar) :
    (handleOldVal m addr2 coMax value).initVals = m ∨
    ((handleOldVal m addr2 coMax value).initVals = (addr2, value) :: m ∧
      lookupInit m addr2 = none) := by
  unfold handleOldVal
  cases coMax with
  | writeLabel isAtomic w =>
      left
      cases hvi : value.is_init <;> cases hA : isAtomic <;> simp [hvi, hA]
  | initLabel =>
      cases hvi : value.is_init
      · left; simp [hvi]
      · simp only [hvi, Bool.true_eq, if_true]
        unfold mapInsert
        cases hl : lookupInit m addr2 with
        | some w => left; simp [hl]
        | none => right; exact ⟨by simp, rfl⟩
  | otherLabel => left; rfl

lemma handleMutexLock_cases (s : ShimState) (tid addr size : Nat)
    (loadRes : LoadResult) (storeRes : StoreResult)
    (aid : Nat) (sA : ShimState) (hga : getOrAssignAnnot s addr = (aid, sA))
    (a : Action) (hq : sA.globalInstructions[tid]? = some a) :
    (∀ e, loadRes.error = some e →
      handleMutexLock s tid addr size loadRes storeRes =
        .ok ⟨setThreadEvent sA tid a (a.event.index + 1 - 1),
             [.lockCasReadLab ⟨a.event.thread, a.event.index + 1⟩ addr size ⟨size * 8, aid, 1⟩],
             [GenmcScalar.ofSVal 0], .fromError e⟩) ∧
    (loadRes.error = none → loadRes.is_read_opt = true →
      handleMutexLock s tid addr size loadRes storeRes =
        .ok ⟨setThreadEvent sA tid a (a.event.index + 1 - 1),
             [.lockCasReadLab ⟨a.event.thread, a.event.index + 1⟩ addr size ⟨size * 8, aid, 1⟩],
             [GenmcScalar.ofSVal 0], .acquired false⟩) ∧
    (loadRes.error = none → loadRes.is_read_opt = false → loadRes.getValue = 0 →
      handleMutexLock s tid addr size loadRes storeRes =
        .ok ⟨setThreadEvent sA tid a (a.event.index + 1 + 1),
             [.lockCasReadLab ⟨a.event.thread, a.event.index + 1⟩ addr size ⟨size * 8, aid, 1⟩,
              .lockCasWriteLab ⟨a.event.thread, a.event.index + 1 + 1⟩ addr size],
             [GenmcScalar.ofSVal 0, GenmcScalar.ofSVal 0],
             match storeRes with
             | .ok _ => .acquired true
             | .error e => .fromError e⟩) ∧
    (loadRes.error = none → loadRes.is_read_opt = false → loadRes.getValue ≠ 0 →
      handleMutexLock s tid addr size loadRes storeRes =
        .ok ⟨setThreadEvent sA tid a (a.event.index + 1 + 1),
             [.lockCasReadLab ⟨a.event.thread, a.event.index + 1⟩ addr size ⟨size * 8, aid, 1⟩,
              .lockNotAcqBlockLab ⟨a.event.thread, a.event.index + 1 + 1⟩],
             [GenmcScalar.ofSVal 0], .acquired false⟩) := by
  have hset := setThreadEvent_getElem? hq a (a.event.index + 1)
  refine ⟨?_, ?_, ?_, ?_⟩
  · intro e herr
    unfold handleMutexLock
    rw [hga]
    simp [incPosUnchecked_ok hq, herr, Bind.bind, Except.bind,
      decPosUnchecked_ok hset, setThreadEvent_setThreadEvent]
  · intro herr hro
    unfold handleMutexLock
    rw [hga]
    simp [incPosUnchecked_ok hq, herr, hro, Bind.bind, Except.bind,
      decPosUnchecked_ok hset, setThreadEvent_setThreadEvent]
  · intro herr hro hval
    unfold handleMutexLock
    rw [hga]
    cases storeRes <;>
      simp [incPosUnchecked_ok hq, herr, hro, hval, Bind.bind, Except.bind,
        incPosUnchecked_ok hset, setThreadEvent_setThreadEvent]
  · intro herr hro hval
    unfold handleMutexLock
    rw [hga]
    simp [incPosUnchecked_ok hq, herr, hro, hval, Bind.bind, Except.bind,
      incPosUnchecked_ok hset, setThreadEvent_setThreadEvent]

lemma handleMutexTryLock_cases (s : ShimState) (tid addr size : Nat)
    (loadRes : LoadResult) (storeRes : StoreResult)
    (a : Action) (hq : s.globalInstructions[tid]? = some a) :
    (∀ e, loadRes.error = some e →
      handleMutexTryLock s tid addr size loadRes storeRes =
        .ok ⟨setThreadEvent s tid a (a.event.index + 1 - 1),
             [.trylockCasReadLab ⟨a.event.thread, a.event.index + 1⟩ addr size],
             [GenmcScalar.ofSVal 0], .fromError e⟩) ∧
    (loadRes.error = none → loadRes.is_read_opt = true →
      handleMutexTryLock s tid addr size loadRes storeRes = .error .nullErrorDeref) ∧
    (loadRes.error = none → loadRes.is_read_opt = false → loadRes.getValue ≠ 0 →
      handleMutexTryLock s tid addr size loadRes storeRes =
        .ok ⟨setThreadEvent s tid a (a.event.index + 1),
             [.trylockCasReadLab ⟨a.event.thread, a.event.index + 1⟩ addr size],
             [GenmcScalar.ofSVal 0], .acquired false⟩) ∧
    (loadRes.error = none → loadRes.is_read_opt = false → loadRes.getValue = 0 →
      handleMutexTryLock s tid addr size loadRes storeRes =
        .ok ⟨setThreadEvent s tid a (a.event.index + 1 + 1),
             [.trylockCasReadLab ⟨a.event.thread, a.event.index + 1⟩ addr size,
              .trylockCasWriteLab ⟨a.event.thread, a.event.index + 1 + 1⟩ addr size],
             [GenmcScalar.ofSVal 0, GenmcScalar.ofSVal 0],
             match storeRes with
             | .ok _ => .acquired true
             | .error e => .fromError e⟩) := by
  have hset := setThreadEvent_getElem? hq a (a.event.index + 1)
  refine ⟨?_, ?_, ?_, ?_⟩
  · intro e herr
    unfold handleMutexTryLock
    simp [incPosUnchecked_ok hq, herr, Bind.bind, Except.bind,
      decPosUnchecked_ok hset, setThreadEvent_setThreadEvent,
      LoadResult.hasValue]
  · intro herr hro
    unfold handleMutexTryLock
    simp [incPosUnchecked_ok hq, herr, hro, Bind.bind, Except.bind,
      decPosUnchecked_ok hset, setThreadEvent_setThreadEvent,
      LoadResult.hasValue]
  · intro herr hro hval
    unfold handleMutexTryLock
    simp [incPosUnchecked_ok hq, herr, hro, hval, Bind.bind, Except.bind,
      LoadResult.hasValue]
  · intro herr hro hval
    unfold handleMutexTryLock
    cases storeRes <;>
      simp [incPosUnchecked_ok hq, herr, hro, hval, Bind.bind, Except.bind,
        incPosUnchecked_ok hset, setThreadEvent_setThreadEvent,
        LoadResult.hasValue]

lemma handleMutexLock_suppliers_zero {s : ShimState} {tid addr size : Nat}
    {loadRes : LoadResult} {storeRes : StoreResult} {out : HandlerOut MutexLockResult}
    {a : Action} (h : s.globalInstructions[tid]? = some a)
    (hout : handleMutexLock s tid addr size loadRes storeRes = .ok out) :
    ∀ g ∈ out.oldValSuppliers, g = GenmcScalar.ofSVal 0 := by
  rcases hga : getOrAssignAnnot s addr with ⟨aid, sA⟩
  have hgi : sA.globalInstructions = s.globalInstructions := by
    have hg2 := getOrAssignAnnot_globalInstructions s addr
    rw [hga] at hg2
    exact hg2
  have hq : sA.globalInstructions[tid]? = some a := by rw [hgi]; exact h
  obtain ⟨h1, h2, h3, h4⟩ :=
    handleMutexLock_cases s tid addr size loadRes storeRes aid sA hga a hq
  cases herr : loadRes.error with
  | some e =>
      rw [h1 e herr] at hout
      injection hout with hout
      subst hout
      intro g hg
      simpa using hg
  | none =>
      cases hro : loadRes.is_read_opt with
      | true =>
          rw [h2 herr hro] at hout
          injection hout with hout
          subst hout
          intro g hg
          simpa using hg
      | false =>
          by_cases hval : loadRes.getValue = 0
          · rw [h3 herr hro hval] at hout
            injection hout with hout
            subst hout
            intro g hg
            rcases List.mem_cons.mp hg with hg2 | hg2
            · exact hg2
            · simpa using hg2
          · rw [h4 herr hro hval] at hout
            injection hout with hout
            subst hout
            intro g hg
            simpa using hg

lemma handleMutexTryLock_suppliers_zero {s : ShimState} {tid addr size : Nat}
    {loadRes : LoadResult} {storeRes : StoreResult} {out : HandlerOut MutexLockResult}
    {a : Action} (h : s.globalInstructions[tid]? = some a)
    (hout : handleMutexTryLock s tid addr size loadRes storeRes = .ok out) :
    ∀ g ∈ out.oldValSuppliers, g = GenmcScalar.ofSVal 0 := by
  obtain ⟨h1, h2, h3, h4⟩ :=
    handleMutexTryLock_cases s tid addr size loadRes storeRes a h
  cases herr : loadRes.error with
  | some e =>
      rw [h1 e herr] at hout
      injection hout with hout
      subst hout
      intro g hg
      simpa using hg
  | none =>
      cases hro : loadRes.is_read_opt with
      | true =>
          rw [h2 herr hro] at hout
          exact Except.noConfusion hout
      | false =>
          by_cases hval : loadRes.getValue = 0
          · rw [h4 herr hro hval] at hout
            injection hout with hout
            subst hout
            intro g hg
            rcases List.mem_cons.mp hg with hg2 | hg2
            · exact hg2
            · simpa using hg2
          · rw [h3 herr hro hval] at hout
            injection hout with hout
            subst hout
            intro g hg
            simpa using hg

lemma keptCount_nil (s1 : ShimState) (tid : Nat) : keptCount [] s1 tid = 0 := rfl

lemma keptCount_cons (l : Label) (ls : List Label) (s1 : ShimState) (tid : Nat) :
    keptCount (l :: ls) s1 tid =
      (if (Label.pos l).index ≤ threadIndex s1 tid then 1 else 0) + keptCount ls s1 tid := by
  unfold keptCount
  by_cases hle : (Label.pos l).index ≤ threadIndex s1 tid <;>
    simp [List.filter, hle, Nat.add_comm]

lemma accounting_single {s : ShimState} {tid : Nat} {a : Action}
    (h : s.globalInstructions[tid]? = some a) {l : Label}
    (hpos : (Label.pos l).index = a.event.index + 1) :
    threadIndex (setThreadEvent s tid a (a.event.index + 1)) tid =
      threadIndex s tid + keptCount [l] (setThreadEvent s tid a (a.event.index + 1)) tid := by
  simp only [keptCount_cons, keptCount_nil, hpos, threadIndex_setThreadEvent h,
    threadIndex_of_some h]
  rw [if_pos le_rfl]
  push_cast
  omega

lemma accounting_double {s : ShimState} {tid : Nat} {a : Action}
    (h : s.globalInstructions[tid]? = some a) {l1 l2 : Label}
    (hp1 : (Label.pos l1).index = a.event.index + 1)
    (hp2 : (Label.pos l2).index = a.event.index + 1 + 1) :
    threadIndex (setThreadEvent s tid a (a.event.index + 1 + 1)) tid =
      threadIndex s tid +
        keptCount [l1, l2] (setThreadEvent s tid a (a.event.index + 1 + 1)) tid := by
  simp only [keptCount_cons, keptCount_nil, hp1, hp2, threadIndex_setThreadEvent h,
    threadIndex_of_some h]
  rw [if_pos (show (a.event.index + 1 : Int) ≤ a.event.index + 1 + 1 by omega),
    if_pos le_rfl]
  push_cast
  omega

lemma accounting_retreat {s : ShimState} {tid : Nat} {a : Action}
    (h : s.globalInstructions[tid]? = some a) {l : Label}
    (hpos : (Label.pos l).index = a.event.index + 1) :
    threadIndex (setThreadEvent s tid a (a.event.index + 1 - 1)) tid =
      threadIndex s tid +
        keptCount [l] (setThreadEvent s tid a (a.event.index + 1 - 1)) tid := by
  simp only [keptCount_cons, keptCount_nil, hpos, threadIndex_setThreadEvent h,
    threadIndex_of_some h]
  rw [if_neg (show ¬ (a.event.index + 1 : Int) ≤ a.event.index + 1 - 1 by omega)]
  push_cast
  omega

lemma runOp_accounting (op : AdapterOp) (s : ShimState) (tid : Nat) (a : Action)
    (h : s.globalInstructions[tid]? = some a) (s1 : ShimState) (labs : List Label)
    (hrun : runOp s tid op = .ok (s1, labs)) :
    threadIndex s1 tid = threadIndex s tid + keptCount labs s1 tid ∧
    ∃ a1 : Action, s1.globalInstructions[tid]? = some a1 := by
  cases op with
  | load addr size ord old_val res =>
      simp only [runOp, handleLoad, incPos_ok h, Bind.bind, Except.bind, Except.map,
        Except.ok.injEq, Prod.mk.injEq] at hrun
      obtain ⟨rfl, rfl⟩ := hrun
      exact ⟨accounting_single h rfl, ⟨_, setThreadEvent_getElem? h a _⟩⟩
  | store addr size value old_val ord ty res =>
      simp only [runOp, handleStore, incPos_ok h, Bind.bind, Except.bind, Except.map,
        Except.ok.injEq, Prod.mk.injEq] at hrun
      obtain ⟨rfl, rfl⟩ := hrun
      exact ⟨accounting_single h rfl, ⟨_, setThreadEvent_getElem? h a _⟩⟩
  | rmw addr size lo so op rhs old_val lres sres =>
      obtain ⟨err, ro, v⟩ := lres
      cases err with
      | some e =>
          simp only [runOp, handleReadModifyWrite, incPos_ok h, Bind.bind, Except.bind,
            Except.map, Except.ok.injEq, Prod.mk.injEq] at hrun
          obtain ⟨rfl, rfl⟩ := hrun
          exact ⟨accounting_single h rfl, ⟨_, setThreadEvent_getElem? h a _⟩⟩
      | none =>
          cases sres with
          | ok co =>
              simp only [runOp, handleReadModifyWrite, handleStore, incPos_ok h,
                incPos_ok (setThreadEvent_getElem? h a (a.event.index + 1)),
                setThreadEvent_setThreadEvent, Bind.bind, Except.bind, Except.map,
                Except.ok.injEq, Prod.mk.injEq] at hrun
              obtain ⟨rfl, rfl⟩ := hrun
              exact ⟨accounting_double h rfl rfl, ⟨_, setThreadEvent_getElem? h a _⟩⟩
          | error e =>
              simp only [runOp, handleReadModifyWrite, handleStore, incPos_ok h,
                incPos_ok (setThreadEvent_getElem? h a (a.event.index + 1)),
                setThreadEvent_setThreadEvent, Bind.bind, Except.bind, Except.map,
                Except.ok.injEq, Prod.mk.injEq] at hrun
              obtain ⟨rfl, rfl⟩ := hrun
              exact ⟨accounting_double h rfl rfl, ⟨_, setThreadEvent_getElem? h a _⟩⟩
  | cas addr size expected new old_val o1 o2 o3 w lres sres =>
      obtain ⟨err, ro, v⟩ := lres
      cases err with
      | some e =>
          simp only [runOp, handleCompareExchange, incPos_ok h, Bind.bind, Except.bind,
            Except.map, Except.ok.injEq, Prod.mk.injEq] at hrun
          obtain ⟨rfl, rfl⟩ := hrun
          exact ⟨accounting_single h rfl, ⟨_, setThreadEvent_getElem? h a _⟩⟩
      | none =>
          by_cases hv : GenmcScalar.toSVal v = GenmcScalar.toSVal expected
          · cases sres with
            | ok co =>
                simp only [runOp, handleCompareExchange, handleStore, incPos_ok h, hv,
                  incPos_ok (setThreadEvent_getElem? h a (a.event.index + 1)),
                  setThreadEvent_setThreadEvent, Bind.bind, Except.bind, Except.map,
                  ne_eq, not_true_eq_false, if_false,
                  Except.ok.injEq, Prod.mk.injEq] at hrun
                obtain ⟨rfl, rfl⟩ := hrun
                exact ⟨accounting_double h rfl rfl, ⟨_, setThreadEvent_getElem? h a _⟩⟩
            | error e =>
                simp only [runOp, handleCompareExchange, handleStore, incPos_ok h, hv,
                  incPos_ok (setThreadEvent_getElem? h a (a.event.index + 1)),
                  setThreadEvent_setThreadEvent, Bind.bind, Except.bind, Except.map,
                  ne_eq, not_true_eq_false, if_false,
                  Except.ok.injEq, Prod.mk.injEq] at hrun
                obtain ⟨rfl, rfl⟩ := hrun
                exact ⟨accounting_double h rfl rfl, ⟨_, setThreadEvent_getElem? h a _⟩⟩
          · simp only [runOp, handleCompareExchange, incPos_ok h, Bind.bind, Except.bind,
              Except.map, ne_eq, hv, not_false_eq_true, if_true,
              Except.ok.injEq, Prod.mk.injEq] at hrun
            obtain ⟨rfl, rfl⟩ := hrun
            exact ⟨accounting_single h rfl, ⟨_, setThreadEvent_getElem? h a _⟩⟩
  | fence ord =>
      simp only [runOp, handleFence, incPos_ok h, Bind.bind, Except.bind, Except.map,
        Except.ok.injEq, Prod.mk.injEq] at hrun
      obtain ⟨rfl, rfl⟩ := hrun
      exact ⟨accounting_single h rfl, ⟨_, setThreadEvent_getElem? h a _⟩⟩
  | malloc size alignment engineAddr =>
      by_cases hs : size = 0
      · simp [runOp, handleMalloc, hs, Except.map] at hrun
      · by_cases he : engineAddr = 0
        · simp [runOp, handleMalloc, hs, he, incPos_ok h, Bind.bind, Except.bind,
            Except.map] at hrun
        · simp only [runOp, handleMalloc, hs, he, incPos_ok h, Bind.bind, Except.bind,
            Except.map, if_false, Except.ok.injEq, Prod.mk.injEq, if_neg hs, if_neg he] at hrun
          obtain ⟨rfl, rfl⟩ := hrun
          exact ⟨accounting_single h rfl, ⟨_, setThreadEvent_getElem? h a _⟩⟩
  | free addr size =>
      by_cases hs : size = 0
      · simp [runOp, handleFree, hs, Except.map] at hrun
      · by_cases ha : addr = 0
        · simp [runOp, handleFree, hs, ha, Except.map] at hrun
        · simp only [runOp, handleFree, hs, ha, incPos_ok h, Bind.bind, Except.bind,
            Except.map, Except.ok.injEq, Prod.mk.injEq, if_neg hs, if_neg ha] at hrun
          obtain ⟨rfl, rfl⟩ := hrun
          exact ⟨accounting_single h rfl, ⟨_, setThreadEvent_getElem? h a _⟩⟩
  | mutexLock addr size lres sres =>
      rcases hga : getOrAssignAnnot s addr with ⟨aid, sA⟩
      have hgi : sA.globalInstructions = s.globalInstructions := by
        have hg2 := getOrAssignAnnot_globalInstructions s addr
        rw [hga] at hg2
        exact hg2
      have hq : sA.globalInstructions[tid]? = some a := by rw [hgi]; exact h
      have hts : threadIndex sA tid = threadIndex s tid := by
        simp [threadIndex, hgi]
      obtain ⟨h1, h2, h3, h4⟩ :=
        handleMutexLock_cases s tid addr size lres sres aid sA hga a hq
      cases herr : lres.error with
      | some e =>
          simp only [runOp, h1 e herr, Except.map, Except.ok.injEq, Prod.mk.injEq] at hrun
          obtain ⟨rfl, rfl⟩ := hrun
          refine ⟨?_, ⟨_, setThreadEvent_getElem? hq a _⟩⟩
          rw [← hts]
          exact accounting_retreat hq rfl
      | none =>
          cases hro : lres.is_read_opt with
          | true =>
              simp only [runOp, h2 herr hro, Except.map, Except.ok.injEq,
                Prod.mk.injEq] at hrun
              obtain ⟨rfl, rfl⟩ := hrun
              refine ⟨?_, ⟨_, setThreadEvent_getElem? hq a _⟩⟩
              rw [← hts]
              exact accounting_retreat hq rfl
          | false =>
              by_cases hval : lres.getValue = 0
              · simp only [runOp, h3 herr hro hval, Except.map, Except.ok.injEq,
                  Prod.mk.injEq] at hrun
                obtain ⟨rfl, rfl⟩ := hrun
                refine ⟨?_, ⟨_, setThreadEvent_getElem? hq a _⟩⟩
                rw [← hts]
                exact accounting_double hq rfl rfl
              · simp only [runOp, h4 herr hro hval, Except.map, Except.ok.injEq,
                  Prod.mk.injEq] at hrun
                obtain ⟨rfl, rfl⟩ := hrun
                refine ⟨?_, ⟨_, setThreadEvent_getElem? hq a _⟩⟩
                rw [← hts]
                exact accounting_double hq rfl rfl
  | mutexTryLock addr size lres sres =>
      obtain ⟨h1, h2, h3, h4⟩ := handleMutexTryLock_cases s tid addr size lres sres a h
      cases herr : lres.error with
      | some e =>
          simp only [runOp, h1 e herr, Except.map, Except.ok.injEq, Prod.mk.injEq] at hrun
          obtain ⟨rfl, rfl⟩ := hrun
          exact ⟨accounting_retreat h rfl, ⟨_, setThreadEvent_getElem? h a _⟩⟩
      | none =>
          cases hro : lres.is_read_opt with
          | true =>
              rw [runOp, h2 herr hro] at hrun
              exact Except.noConfusion hrun
          | false =>
              by_cases hval : lres.getValue = 0
              · simp only [runOp, h4 herr hro hval, Except.map, Except.ok.injEq,
                  Prod.mk.injEq] at hrun
                obtain ⟨rfl, rfl⟩ := hrun
                exact ⟨accounting_double h rfl rfl, ⟨_, setThreadEvent_getElem? h a _⟩⟩
              · simp only [runOp, h3 herr hro hval, Except.map, Except.ok.injEq,
                  Prod.mk.injEq] at hrun
                obtain ⟨rfl, rfl⟩ := hrun
                exact ⟨accounting_single h rfl, ⟨_, setThreadEvent_getElem? h a _⟩⟩
  | mutexUnlock addr size sres =>
      simp only [runOp, handleMutexUnlock, handleStore, incPos_ok h, Bind.bind, Except.bind,
        Except.map, Except.ok.injEq, Prod.mk.injEq] at hrun
      obtain ⟨rfl, rfl⟩ := hrun
      exact ⟨accounting_single h rfl, ⟨_, setThreadEvent_getElem? h a _⟩⟩
  | threadJoin child res =>
      cases res with
      | some r =>
          simp only [runOp, handleThreadJoin, incPos_ok h, Bind.bind, Except.bind,
            Except.map, Except.ok.injEq, Prod.mk.injEq] at hrun
          obtain ⟨rfl, rfl⟩ := hrun
          exact ⟨accounting_single h rfl, ⟨_, setThreadEvent_getElem? h a _⟩⟩
      | none =>
          simp only [runOp, handleThreadJoin, incPos_ok h,
            decPos_ok (setThreadEvent_getElem? h a (a.event.index + 1)),
            setThreadEvent_setThreadEvent, Bind.bind, Except.bind, Except.map,
            Except.ok.injEq, Prod.mk.injEq] at hrun
          obtain ⟨rfl, rfl⟩ := hrun
          exact ⟨accounting_retreat h rfl, ⟨_, setThreadEvent_getElem? h a _⟩⟩
  | threadFinish ret =>
      simp only [runOp, handleThreadFinish, incPos_ok h, Bind.bind, Except.bind, Except.map,
        Except.ok.injEq, Prod.mk.injEq] at hrun
      obtain ⟨rfl, rfl⟩ := hrun
      exact ⟨accounting_single h rfl, ⟨_, setThreadEvent_getElem? h a _⟩⟩
  | userBlock =>
      simp only [runOp, handleUserBlock, incPos_ok h, Bind.bind, Except.bind, Except.map,
        Except.ok.injEq, Prod.mk.injEq] at hrun
      obtain ⟨rfl, rfl⟩ := hrun
      exact ⟨accounting_single h rfl, ⟨_, setThreadEvent_getElem? h a _⟩⟩

lemma runOps_accounting (tid : Nat) (ops : List AdapterOp) :
    ∀ (s : ShimState) (a : Action), s.globalInstructions[tid]? = some a →
    ∀ (s2 : ShimState) (n : Nat), runOps s tid ops = .ok (s2, n) →
    threadIndex s2 tid = threadIndex s tid + n ∧
    ∃ a2, s2.globalInstructions[tid]? = some a2 := by
  induction ops with
  | nil =>
      intro s a h s2 n hrun
      simp only [runOps, Except.ok.injEq, Prod.mk.injEq] at hrun
      obtain ⟨rfl, rfl⟩ := hrun
      exact ⟨by simp, ⟨a, h⟩⟩
  | cons op ops ih =>
      intro s a h s2 n hrun
      rw [runOps] at hrun
      cases hop : runOp s tid op with
      | error f =>
          rw [hop] at hrun
          simp [Bind.bind, Except.bind] at hrun
      | ok r =>
          obtain ⟨s1, labs⟩ := r
          rw [hop] at hrun
          simp only [Bind.bind, Except.bind] at hrun
          cases hops : runOps s1 tid ops with
          | error f =>
              rw [hops] at hrun
              simp at hrun
          | ok r2 =>
              obtain ⟨s2b, n2⟩ := r2
              rw [hops] at hrun
              simp only [Except.ok.injEq, Prod.mk.injEq] at hrun
              obtain ⟨rfl, rfl⟩ := hrun
              obtain ⟨hd1, a1, h1⟩ := runOp_accounting op s tid a h s1 labs hop
              obtain ⟨hd2, ha2⟩ := ih s1 a1 h1 s2b n2 hops
              refine ⟨?_, ha2⟩
              push_cast
              omega

/-! ## Claim theorems -/

/-- C1: when the coherence-order-maximal label of an address is its
`InitLabel` and the candidate is initialized, `handleOldVal` never fires its
`BUG_ON` — the assertion condition `result.second && (*result.first).second
!= value` is unsatisfiable, because a successful `insert` stores exactly the
candidate.  At the concrete failing input (address 7 already recorded with
value 1, second initialized candidate 2) the differing record attempt is
silently ignored: the table keeps value 1 and no fatal assertion fires,
whereas a fresh record (empty table) does store the candidate. -/
theorem c1_second_differing_init_value_is_silently_ignored :
    (∀ (m : List (Nat × GenmcScalar)) (addr : Nat) (v : GenmcScalar),
        (handleOldVal m addr .initLabel v).bug = false) ∧
    handleOldVal [(7, ⟨1, 0, true⟩)] 7 .initLabel ⟨2, 0, true⟩ =
      ⟨[(7, ⟨1, 0, true⟩)], none, false⟩ ∧
    handleOldVal [] 7 .initLabel ⟨2, 0, true⟩ =
      ⟨[(7, ⟨2, 0, true⟩)], none, false⟩ := by
  refine ⟨fun m addr v => ?_, by decide, by decide⟩
  unfold handleOldVal
  by_cases hv : v.is_init
  · simp only [hv, if_true]
    unfold mapInsert
    cases hl : lookupInit m addr <;> simp [hl]
  · simp [hv]

/-- C6: at the concrete failing input — a `TryLock` whose read resolves no
value (`is_read_opt`, no error) — the adapter dereferences the absent error
object instead of reporting `not acquired`; at a resolved nonzero value it
reports not acquired with exactly the unannotated read submitted (no block
label), and at a read error it surfaces the error, again with no block
label. -/
theorem c6_trylock_unresolved_read_dereferences_absent_error :
    handleMutexTryLock ShimState.initial 0 100 4
      ⟨none, true, GenmcScalar.ofSVal 0⟩ (.ok true) = .error .nullErrorDeref ∧
    (handleMutexTryLock ShimState.initial 0 100 4
        ⟨none, false, GenmcScalar.ofSVal 1⟩ (.ok true)).map
      (fun out => (out.result, out.submitted)) =
      .ok (⟨false, none⟩, [.trylockCasReadLab ⟨0, 1⟩ 100 4]) ∧
    (handleMutexTryLock ShimState.initial 0 100 4
        ⟨some "race", false, GenmcScalar.ofSVal 0⟩ (.ok true)).map
      (fun out => (out.result, out.submitted.filter (fun l => l.isBlock))) =
      .ok (⟨false, some "race"⟩, []) := by
  exact ⟨rfl, rfl, rfl⟩

/-- C7: the registered initial-value getter is a total function (never a
fatal error): on a table whose entries are all initialized — the only kind
`handleOldVal` ever inserts — it returns the stored value for a recorded
address and the diagnostic placeholder `0xCC00CC00` for an unrecorded one;
and a recorded entry survives any later `handleOldVal` call unchanged, so all
queries after a record return the same value. -/
theorem c7_init_val_getter_returns_recorded_value_or_placeholder
    (m : List (Nat × GenmcScalar)) (addr : Nat)
    (hm : ∀ p ∈ m, p.2.is_init = true) :
    (∀ v, lookupInit m addr = some v → initValGetter m addr = v.toSVal) ∧
    (lookupInit m addr = none → initValGetter m addr = NO_INIT_VALUE_PLACEHOLDER) ∧
    (∀ (addr2 : Nat) (coMax : CoMaxLabel) (value : GenmcScalar) (v : GenmcScalar),
        lookupInit m addr = some v →
        lookupInit (handleOldVal m addr2 coMax value).initVals addr = some v) := by
  refine ⟨?_, ?_, ?_⟩
  · intro v hv
    obtain ⟨p, hp, hpv⟩ := Option.map_eq_some'.mp hv
    have hinit : v.is_init = true := hpv ▸ hm p (List.mem_of_find?_eq_some hp)
    unfold initValGetter
    rw [hv]
    simp [hinit]
  · intro hv
    unfold initValGetter
    rw [hv]
  · intro addr2 coMax value v hv
    rcases handleOldVal_initVals m addr2 coMax value with heq | ⟨heq, hnone⟩
    · rw [heq]; exact hv
    · rw [heq]
      have hne : addr2 ≠ addr := by
        intro he
        rw [he, hv] at hnone
        exact Option.noConfusion hnone
      rw [lookupInit_cons_ne hne]
      exact hv

/-- C8: with the issuing thread registered, `handleMalloc` aborts fatally
exactly when the requested size is zero or the engine returns a null
address, and `handleFree` aborts fatally exactly when the size is zero or
the address is null; hence under the preconditions `size ≠ 0` and a non-null
engine address the fatal branches are unreachable. -/
theorem c8_malloc_free_fatal_iff (s : ShimState) (tid : Nat)
    (size alignment addr engineAddr : Nat) (a : Action)
    (h : s.globalInstructions[tid]? = some a) :
    ((∃ f, handleMalloc s tid size alignment engineAddr = .error f) ↔
        size = 0 ∨ engineAddr = 0) ∧
    ((∃ f, handleFree s tid addr size = .error f) ↔ size = 0 ∨ addr = 0) := by
  constructor
  · constructor
    · intro ⟨f, hf⟩
      by_contra hc
      push_neg at hc
      obtain ⟨hs, he⟩ := hc
      simp [handleMalloc, hs, he, incPos_ok h, Bind.bind, Except.bind] at hf
    · intro hc
      rcases hc with hs | he
      · exact ⟨.bugOn "size == 0", by simp [handleMalloc, hs]⟩
      · by_cases hs : size = 0
        · exact ⟨.bugOn "size == 0", by simp [handleMalloc, hs]⟩
        · exact ⟨.bugOn "retVal.get() == 0", by
            simp [handleMalloc, hs, he, incPos_ok h, Bind.bind, Except.bind]⟩
  · constructor
    · intro ⟨f, hf⟩
      by_contra hc
      push_neg at hc
      obtain ⟨hs, ha⟩ := hc
      simp [handleFree, hs, ha, incPos_ok h, Bind.bind, Except.bind] at hf
    · intro hc
      rcases hc with hs | ha
      · exact ⟨.bugOn "size == 0", by simp [handleFree, hs]⟩
      · by_cases hs : size = 0
        · exact ⟨.bugOn "size == 0", by simp [handleFree, hs]⟩
        · exact ⟨.bugOn "addr.get() == 0", by simp [handleFree, hs, ha]⟩

/-- C7 witness: on the table recording value 5 for address 7, the getter
returns 5 at address 7 and the placeholder at the unrecorded address 9. -/
theorem c7_init_val_getter_witness :
    initValGetter [(7, ⟨5, 0, true⟩)] 7 = GenmcScalar.toSVal ⟨5, 0, true⟩ ∧
    initValGetter [(7, ⟨5, 0, true⟩)] 9 = NO_INIT_VALUE_PLACEHOLDER :=
  ⟨(c7_init_val_getter_returns_recorded_value_or_placeholder
      [(7, ⟨5, 0, true⟩)] 7 (by decide)).1 ⟨5, 0, true⟩ rfl,
   (c7_init_val_getter_returns_recorded_value_or_placeholder
      [(7, ⟨5, 0, true⟩)] 9 (by decide)).2.1 rfl⟩

/-- C8 witness: at the initial state with thread 0, a zero-size malloc is
fatal and a malloc of size 8 with engine address 16 is not; a free of
address 0 is fatal and a free of address 16 with size 8 is not. -/
theorem c8_malloc_free_fatal_iff_witness :
    ((∃ f, handleMalloc ShimState.initial 0 0 8 16 = .error f) ↔
        (0 : Nat) = 0 ∨ (16 : Nat) = 0) ∧
    ((∃ f, handleFree ShimState.initial 0 0 8 = .error f) ↔
        (8 : Nat) = 0 ∨ (0 : Nat) = 0) :=
  ⟨(c8_malloc_free_fatal_iff ShimState.initial 0 0 8 0 16 ⟨.Load, .getInit⟩ rfl).1,
   (c8_malloc_free_fatal_iff ShimState.initial 0 8 8 0 16 ⟨.Load, .getInit⟩ rfl).2⟩

/-- C9: `scheduleNext` on a registered current thread succeeds, changing only
that thread's instruction-kind hint: the resulting table differs from the old
one in no `Action` of any other thread, every thread's event (the current
thread's included) is unchanged, and the returned value is the engine-chosen
thread id, or `-1` when the engine reports that no thread is runnable. -/
theorem c9_schedule_next_pure_query (s : ShimState) (curr : Nat)
    (kind : ActionKind) (choice : Option Nat) (a : Action)
    (h : s.globalInstructions[curr]? = some a) :
    scheduleNext s curr kind choice =
      .ok ({ s with globalInstructions := s.globalInstructions.set curr ⟨kind, a.event⟩ },
        match choice with
        | some t => Int.ofNat t
        | none => -1) ∧
    (∀ t : Nat, ((s.globalInstructions.set curr ⟨kind, a.event⟩)[t]?).map Action.event =
        (s.globalInstructions[t]?).map Action.event) ∧
    (∀ t : Nat, t ≠ curr →
        (s.globalInstructions.set curr ⟨kind, a.event⟩)[t]? = s.globalInstructions[t]?) := by
  refine ⟨by cases choice <;> simp [scheduleNext, h], ?_, ?_⟩
  · intro t
    by_cases ht : t = curr
    · subst ht
      rw [getElem?_set_self h, h]
      rfl
    · rw [List.getElem?_set_ne (fun hc => ht hc.symm)]
  · intro t ht
    rw [List.getElem?_set_ne (fun hc => ht hc.symm)]

/-- C9 witness: at the initial state, querying with current thread 0, hint
`NonLoad` and no engine-chosen thread returns `-1` and only flips thread 0's
hint. -/
theorem c9_schedule_next_witness :
    scheduleNext ShimState.initial 0 .NonLoad none =
      .ok ({ ShimState.initial with globalInstructions :=
               ShimState.initial.globalInstructions.set 0 ⟨.NonLoad, Action.event ⟨.Load, .getInit⟩⟩ },
        -1) :=
  (c9_schedule_next_pure_query ShimState.initial 0 .NonLoad none ⟨.Load, .getInit⟩ rfl).1

/-- C10: `handleMutexUnlock` issues its store with claimed old value
`SVal(0xDEADBEEF)` (an initialized scalar, distinct from the unlocked
sentinel 0 that `handleMutexLock` and `handleMutexTryLock` capture in their
`oldValSetter`s); consequently, when the coherence-order-maximal label of the
mutex address is its `InitLabel` and no initial value is recorded yet,
`handleOldVal` records `0xDEADBEEF` as the address's initial value, and when
it is a non-atomic write, that write's value is overwritten in place with
`0xDEADBEEF`. -/
theorem c10_mutex_unlock_claims_deadbeef_old_value (s : ShimState)
    (tid addr size : Nat) (storeRes : StoreResult) (a : Action)
    (h : s.globalInstructions[tid]? = some a) :
    handleMutexUnlock s tid addr size storeRes =
      .ok ⟨setThreadEvent s tid a (a.event.index + 1),
           [.writeLab ⟨a.event.thread, a.event.index + 1⟩ .Release addr size .MutexUnlockWrite 0],
           [GenmcScalar.ofSVal 0xDEADBEEF], storeRes⟩ ∧
    GenmcScalar.ofSVal 0xDEADBEEF ≠ GenmcScalar.ofSVal 0 ∧
    (∀ m, lookupInit m addr = none →
        (handleOldVal m addr .initLabel (GenmcScalar.ofSVal 0xDEADBEEF)).initVals =
          (addr, GenmcScalar.ofSVal 0xDEADBEEF) :: m ∧
        (handleOldVal m addr .initLabel (GenmcScalar.ofSVal 0xDEADBEEF)).bug = false) ∧
    (∀ m (w : Nat),
        (handleOldVal m addr (.writeLabel false w) (GenmcScalar.ofSVal 0xDEADBEEF)).overwrittenVal =
          some 0xDEADBEEF) ∧
    (∀ loadRes storeRes2 out,
        handleMutexLock s tid addr size loadRes storeRes2 = .ok out →
        ∀ g ∈ out.oldValSuppliers, g = GenmcScalar.ofSVal 0) ∧
    (∀ loadRes storeRes2 out,
        handleMutexTryLock s tid addr size loadRes storeRes2 = .ok out →
        ∀ g ∈ out.oldValSuppliers, g = GenmcScalar.ofSVal 0) := by
  refine ⟨?_, by decide, ?_, ?_, ?_, ?_⟩
  · simp [handleMutexUnlock, handleStore, incPos_ok h, Bind.bind, Except.bind,
      GenmcScalar.ofSVal, GenmcScalar.toSVal]
  · intro m hm
    constructor <;> simp [handleOldVal, mapInsert, hm, GenmcScalar.ofSVal]
  · intro m w
    simp [handleOldVal, GenmcScalar.ofSVal, GenmcScalar.toSVal]
  · intro loadRes storeRes2 out hout
    exact handleMutexLock_suppliers_zero h hout
  · intro loadRes storeRes2 out hout
    exact handleMutexTryLock_suppliers_zero h hout

/-- C10 witness: unlocking address 100 (size 4) at the initial state submits
the unlock write with claimed old value `0xDEADBEEF`, and `handleOldVal` on
an empty table with an `InitLabel` co-max records `0xDEADBEEF` for it. -/
theorem c10_mutex_unlock_witness :
    handleMutexUnlock ShimState.initial 0 100 4 (.ok true) =
      .ok ⟨setThreadEvent ShimState.initial 0 ⟨.Load, .getInit⟩ (Event.index Event.getInit + 1),
           [.writeLab ⟨0, Event.index Event.getInit + 1⟩ .Release 100 4 .MutexUnlockWrite 0],
           [GenmcScalar.ofSVal 0xDEADBEEF], .ok true⟩ ∧
    (handleOldVal [] 100 .initLabel (GenmcScalar.ofSVal 0xDEADBEEF)).initVals =
      [(100, GenmcScalar.ofSVal 0xDEADBEEF)] :=
  ⟨(c10_mutex_unlock_claims_deadbeef_old_value ShimState.initial 0 100 4 (.ok true)
      ⟨.Load, .getInit⟩ rfl).1,
   ((c10_mutex_unlock_claims_deadbeef_old_value ShimState.initial 0 100 4 (.ok true)
      ⟨.Load, .getInit⟩ rfl).2.2.1 [] rfl).1⟩

/-- C5: for a `handleMutexLock` call whose annotated read resolves a value:
if the observed value is the unlocked sentinel 0, the follow-up
`LockCasWriteLabel` is submitted after the annotated read and the call
reports acquired with no error when the store succeeds, while a store-phase
error is surfaced as the result instead; if the observed value is nonzero, a
`LockNotAcqBlockLabel` is submitted and the call reports not acquired with no
error. -/
theorem c5_mutex_lock_acquire_or_block (s : ShimState) (tid addr size : Nat)
    (loadRes : LoadResult) (storeRes : StoreResult)
    (aid : Nat) (sA : ShimState) (hga : getOrAssignAnnot s addr = (aid, sA))
    (a : Action) (hq : sA.globalInstructions[tid]? = some a)
    (herr : loadRes.error = none) (hro : loadRes.is_read_opt = false) :
    (loadRes.getValue = 0 →
      handleMutexLock s tid addr size loadRes storeRes =
        .ok ⟨setThreadEvent sA tid a (a.event.index + 1 + 1),
             [.lockCasReadLab ⟨a.event.thread, a.event.index + 1⟩ addr size ⟨size * 8, aid, 1⟩,
              .lockCasWriteLab ⟨a.event.thread, a.event.index + 1 + 1⟩ addr size],
             [GenmcScalar.ofSVal 0, GenmcScalar.ofSVal 0],
             match storeRes with
             | .ok _ => .acquired true
             | .error e => .fromError e⟩) ∧
    (loadRes.getValue ≠ 0 →
      handleMutexLock s tid addr size loadRes storeRes =
        .ok ⟨setThreadEvent sA tid a (a.event.index + 1 + 1),
             [.lockCasReadLab ⟨a.event.thread, a.event.index + 1⟩ addr size ⟨size * 8, aid, 1⟩,
              .lockNotAcqBlockLab ⟨a.event.thread, a.event.index + 1 + 1⟩],
             [GenmcScalar.ofSVal 0], .acquired false⟩) := by
  obtain ⟨h1, h2, h3, h4⟩ :=
    handleMutexLock_cases s tid addr size loadRes storeRes aid sA hga a hq
  exact ⟨h3 herr hro, h4 herr hro⟩

/-- C5 witness: at the initial state, locking address 100 (size 4) with an
observed value 0 and a successful store acquires the mutex after submitting
the annotated read and the lock write; with an observed value 1 it submits
the read and a block label and reports not acquired. -/
theorem c5_mutex_lock_witness :
    handleMutexLock ShimState.initial 0 100 4 ⟨none, false, GenmcScalar.ofSVal 0⟩ (.ok true) =
      .ok ⟨setThreadEvent { ShimState.initial with annotationId := [(100, 0)], annotationIdCounter := 1 }
             0 ⟨.Load, .getInit⟩ (Event.index Event.getInit + 1 + 1),
           [.lockCasReadLab ⟨0, Event.index Event.getInit + 1⟩ 100 4 ⟨4 * 8, 0, 1⟩,
            .lockCasWriteLab ⟨0, Event.index Event.getInit + 1 + 1⟩ 100 4],
           [GenmcScalar.ofSVal 0, GenmcScalar.ofSVal 0], .acquired true⟩ ∧
    handleMutexLock ShimState.initial 0 100 4 ⟨none, false, GenmcScalar.ofSVal 1⟩ (.ok true) =
      .ok ⟨setThreadEvent { ShimState.initial with annotationId := [(100, 0)], annotationIdCounter := 1 }
             0 ⟨.Load, .getInit⟩ (Event.index Event.getInit + 1 + 1),
           [.lockCasReadLab ⟨0, Event.index Event.getInit + 1⟩ 100 4 ⟨4 * 8, 0, 1⟩,
            .lockNotAcqBlockLab ⟨0, Event.index Event.getInit + 1 + 1⟩],
           [GenmcScalar.ofSVal 0], .acquired false⟩ :=
  ⟨(c5_mutex_lock_acquire_or_block ShimState.initial 0 100 4
      ⟨none, false, GenmcScalar.ofSVal 0⟩ (.ok true) 0
      { ShimState.initial with annotationId := [(100, 0)], annotationIdCounter := 1 }
      rfl ⟨.Load, .getInit⟩ rfl rfl rfl).1 rfl,
   (c5_mutex_lock_acquire_or_block ShimState.initial 0 100 4
      ⟨none, false, GenmcScalar.ofSVal 1⟩ (.ok true) 0
      { ShimState.initial with annotationId := [(100, 0)], annotationIdCounter := 1 }
      rfl ⟨.Load, .getInit⟩ rfl rfl rfl).2 (by decide)⟩

/-- C4 counterexample: a `handleCompareExchange` whose observed value equals
the expected value (both 0) but whose store phase reports an error returns
that error, not a success result — refuting the claim that a matching
compare-exchange always results in success carrying the old value. -/
theorem c4_cas_match_with_store_error_is_not_success :
    (handleCompareExchange ShimState.initial 0 100 8 (GenmcScalar.ofSVal 0)
        (GenmcScalar.ofSVal 1) (GenmcScalar.ofSVal 0) .Relaxed .Relaxed .Relaxed false
        ⟨none, false, GenmcScalar.ofSVal 0⟩ (.error "race")).map
      (fun out => out.result) = .ok (.fromError "race") ∧
    CompareExchangeResult.fromError "race" ≠ .success 0 true ∧
    CompareExchangeResult.fromError "race" ≠ .success 0 false :=
  ⟨rfl, by decide, by decide⟩

/-- C4 (amended): on a resolved read, if the observed value equals the
expected value a `CasWriteLabel` carrying the new value is submitted and the
result is success carrying the observed old value provided the store phase
reports no error — a store-phase error is propagated as the result instead;
if the observed value differs, no store label is submitted and the result is
a failure carrying the observed value. -/
theorem c4_cas_match_stores_mismatch_fails (s : ShimState) (tid addr size : Nat)
    (expected new old : GenmcScalar) (o1 o2 o3 : MemOrdering) (w : Bool)
    (v : GenmcScalar) (ro : Bool) (storeRes : StoreResult)
    (a : Action) (h : s.globalInstructions[tid]? = some a) :
    (v.toSVal = expected.toSVal →
      handleCompareExchange s tid addr size expected new old o1 o2 o3 w
          ⟨none, ro, v⟩ storeRes =
        .ok ⟨setThreadEvent s tid a (a.event.index + 1 + 1),
             [.casReadLab ⟨a.event.thread, a.event.index + 1⟩ o1 addr size
                expected.toSVal new.toSVal,
              .writeLab ⟨a.event.thread, a.event.index + 1 + 1⟩ o2 addr size
                .CompareExchange new.toSVal],
             [old, old],
             match storeRes with
             | .ok co => .success v.toSVal co
             | .error e => .fromError e⟩) ∧
    (v.toSVal ≠ expected.toSVal →
      handleCompareExchange s tid addr size expected new old o1 o2 o3 w
          ⟨none, ro, v⟩ storeRes =
        .ok ⟨setThreadEvent s tid a (a.event.index + 1),
             [.casReadLab ⟨a.event.thread, a.event.index + 1⟩ o1 addr size
                expected.toSVal new.toSVal],
             [old], .failure v.toSVal⟩) := by
  have hset := setThreadEvent_getElem? h a (a.event.index + 1)
  constructor
  · intro hv
    unfold handleCompareExchange
    cases storeRes <;>
      simp [incPos_ok h, hv, Bind.bind, Except.bind, handleStore,
        incPos_ok hset, setThreadEvent_setThreadEvent, GenmcScalar.toSVal,
        GenmcScalar.ofSVal] <;>
      exact hv
  · intro hv
    unfold handleCompareExchange
    simp [incPos_ok h, hv, Bind.bind, Except.bind]

/-- C4 witness: at the initial state, a CAS with expected 0 observing 0 and a
successful store reports success with old value 0 after submitting the CAS
write; observing 1 reports failure with old value 1 and submits no write. -/
theorem c4_cas_witness :
    handleCompareExchange ShimState.initial 0 100 8 (GenmcScalar.ofSVal 0)
        (GenmcScalar.ofSVal 1) (GenmcScalar.ofSVal 0) .Relaxed .Relaxed .Relaxed false
        ⟨none, false, GenmcScalar.ofSVal 0⟩ (.ok true) =
      .ok ⟨setThreadEvent ShimState.initial 0 ⟨.Load, .getInit⟩ (Event.index Event.getInit + 1 + 1),
           [.casReadLab ⟨0, Event.index Event.getInit + 1⟩ .Relaxed 100 8
              (GenmcScalar.toSVal (GenmcScalar.ofSVal 0)) (GenmcScalar.toSVal (GenmcScalar.ofSVal 1)),
            .writeLab ⟨0, Event.index Event.getInit + 1 + 1⟩ .Relaxed 100 8 .CompareExchange
              (GenmcScalar.toSVal (GenmcScalar.ofSVal 1))],
           [GenmcScalar.ofSVal 0, GenmcScalar.ofSVal 0],
           .success (GenmcScalar.toSVal (GenmcScalar.ofSVal 0)) true⟩ ∧
    handleCompareExchange ShimState.initial 0 100 8 (GenmcScalar.ofSVal 0)
        (GenmcScalar.ofSVal 1) (GenmcScalar.ofSVal 0) .Relaxed .Relaxed .Relaxed false
        ⟨none, false, GenmcScalar.ofSVal 1⟩ (.ok true) =
      .ok ⟨setThreadEvent ShimState.initial 0 ⟨.Load, .getInit⟩ (Event.index Event.getInit + 1),
           [.casReadLab ⟨0, Event.index Event.getInit + 1⟩ .Relaxed 100 8
              (GenmcScalar.toSVal (GenmcScalar.ofSVal 0)) (GenmcScalar.toSVal (GenmcScalar.ofSVal 1))],
           [GenmcScalar.ofSVal 0], .failure (GenmcScalar.toSVal (GenmcScalar.ofSVal 1))⟩ :=
  ⟨(c4_cas_match_stores_mismatch_fails ShimState.initial 0 100 8 (GenmcScalar.ofSVal 0)
      (GenmcScalar.ofSVal 1) (GenmcScalar.ofSVal 0) .Relaxed .Relaxed .Relaxed false
      (GenmcScalar.ofSVal 0) false (.ok true) ⟨.Load, .getInit⟩ rfl).1 rfl,
   (c4_cas_match_stores_mismatch_fails ShimState.initial 0 100 8 (GenmcScalar.ofSVal 0)
      (GenmcScalar.ofSVal 1) (GenmcScalar.ofSVal 0) .Relaxed .Relaxed .Relaxed false
      (GenmcScalar.ofSVal 1) false (.ok true) ⟨.Load, .getInit⟩ rfl).2 (by decide)⟩

/-- C3: for a `handleReadModifyWrite` whose read phase resolves old value v,
the computed new value is `executeRMWBinOp v rhs size op` — for ADD this is
`(v + rhs) mod 2^(8*size)` — a `FaiWriteLabel` carrying exactly that value is
submitted, and the result reports (v, new value) when the store succeeds (a
store error is propagated); when the read phase errors, that error is
returned and no store label is submitted. -/
theorem c3_rmw_wraps_and_gates_store (s : ShimState) (tid addr size : Nat)
    (lo so : MemOrdering) (op : RMWBinOp) (rhs old : GenmcScalar)
    (storeRes : StoreResult) (a : Action)
    (h : s.globalInstructions[tid]? = some a) :
    (∀ (v : GenmcScalar) (ro : Bool),
      handleReadModifyWrite s tid addr size lo so op rhs old ⟨none, ro, v⟩ storeRes =
        .ok ⟨setThreadEvent s tid a (a.event.index + 1 + 1),
             [.faiReadLab ⟨a.event.thread, a.event.index + 1⟩ lo addr size op rhs.toSVal,
              .writeLab ⟨a.event.thread, a.event.index + 1 + 1⟩ so addr size .ReadModifyWrite
                (executeRMWBinOp v.toSVal rhs.toSVal size op)],
             [old, old],
             match storeRes with
             | .ok co => .ok v.toSVal (executeRMWBinOp v.toSVal rhs.toSVal size op) co
             | .error e => .fromError e⟩) ∧
    (∀ (e : String) (ro : Bool) (v : GenmcScalar),
      handleReadModifyWrite s tid addr size lo so op rhs old ⟨some e, ro, v⟩ storeRes =
        .ok ⟨setThreadEvent s tid a (a.event.index + 1),
             [.faiReadLab ⟨a.event.thread, a.event.index + 1⟩ lo addr size op rhs.toSVal],
             [old], .fromError e⟩) ∧
    (∀ v r : Nat, executeRMWBinOp v r size .add = (v + r) % 2 ^ (8 * size)) := by
  have hset := setThreadEvent_getElem? h a (a.event.index + 1)
  refine ⟨?_, ?_, fun v r => rfl⟩
  · intro v ro
    unfold handleReadModifyWrite
    cases storeRes <;>
      simp [incPos_ok h, Bind.bind, Except.bind, handleStore,
        incPos_ok hset, setThreadEvent_setThreadEvent, GenmcScalar.toSVal,
        GenmcScalar.ofSVal]
  · intro e ro v
    unfold handleReadModifyWrite
    simp [incPos_ok h, Bind.bind, Except.bind]

/-- C3 witness: at the initial state, an ADD RMW of size 8 with rhs 5 over
observed old value `2^64 - 3` reports new value 2 (wrap-around modulo 2^64)
and submits the store carrying 2; with an erroring read phase the error is
returned and only the read label is submitted. -/
theorem c3_rmw_witness :
    handleReadModifyWrite ShimState.initial 0 100 8 .Relaxed .Relaxed .add
        (GenmcScalar.ofSVal 5) (GenmcScalar.ofSVal 0)
        ⟨none, false, GenmcScalar.ofSVal (2 ^ 64 - 3)⟩ (.ok true) =
      .ok ⟨setThreadEvent ShimState.initial 0 ⟨.Load, .getInit⟩ (Event.index Event.getInit + 1 + 1),
           [.faiReadLab ⟨0, Event.index Event.getInit + 1⟩ .Relaxed 100 8 .add
              (GenmcScalar.toSVal (GenmcScalar.ofSVal 5)),
            .writeLab ⟨0, Event.index Event.getInit + 1 + 1⟩ .Relaxed 100 8 .ReadModifyWrite
              (executeRMWBinOp (GenmcScalar.toSVal (GenmcScalar.ofSVal (2 ^ 64 - 3)))
                (GenmcScalar.toSVal (GenmcScalar.ofSVal 5)) 8 .add)],
           [GenmcScalar.ofSVal 0, GenmcScalar.ofSVal 0],
           .ok (GenmcScalar.toSVal (GenmcScalar.ofSVal (2 ^ 64 - 3)))
             (executeRMWBinOp (GenmcScalar.toSVal (GenmcScalar.ofSVal (2 ^ 64 - 3)))
               (GenmcScalar.toSVal (GenmcScalar.ofSVal 5)) 8 .add) true⟩ ∧
    executeRMWBinOp (2 ^ 64 - 3) 5 8 .add = 2 ∧
    handleReadModifyWrite ShimState.initial 0 100 8 .Relaxed .Relaxed .add
        (GenmcScalar.ofSVal 5) (GenmcScalar.ofSVal 0)
        ⟨some "race", false, GenmcScalar.ofSVal 0⟩ (.ok true) =
      .ok ⟨setThreadEvent ShimState.initial 0 ⟨.Load, .getInit⟩ (Event.index Event.getInit + 1),
           [.faiReadLab ⟨0, Event.index Event.getInit + 1⟩ .Relaxed 100 8 .add
              (GenmcScalar.toSVal (GenmcScalar.ofSVal 5))],
           [GenmcScalar.ofSVal 0], .fromError "race"⟩ :=
  ⟨(c3_rmw_wraps_and_gates_store ShimState.initial 0 100 8 .Relaxed .Relaxed .add
      (GenmcScalar.ofSVal 5) (GenmcScalar.ofSVal 0) (.ok true) ⟨.Load, .getInit⟩ rfl).1
      (GenmcScalar.ofSVal (2 ^ 64 - 3)) false,
   by norm_num [executeRMWBinOp],
   (c3_rmw_wraps_and_gates_store ShimState.initial 0 100 8 .Relaxed .Relaxed .add
      (GenmcScalar.ofSVal 5) (GenmcScalar.ofSVal 0) (.ok true) ⟨.Load, .getInit⟩ rfl).2.1
      "race" false (GenmcScalar.ofSVal 0)⟩

/-- C2: on a registered thread, every sequence of adapter operations that
completes without a fatal error changes the thread's event index by exactly
the number of committed events (one per label submitted and not rolled
back), each single operation likewise; in particular a mutex Lock whose read
resolves no value or returns an error, and a thread Join whose child has not
finished, exactly restore the index they speculatively advanced, while a
completed Join advances it by exactly one. -/
theorem c2_per_thread_position_accounting (s : ShimState) (tid : Nat) (a : Action)
    (h : s.globalInstructions[tid]? = some a) :
    (∀ (ops : List AdapterOp) (s2 : ShimState) (n : Nat),
        runOps s tid ops = .ok (s2, n) →
        threadIndex s2 tid = threadIndex s tid + n) ∧
    (∀ (op : AdapterOp) (s1 : ShimState) (labs : List Label),
        runOp s tid op = .ok (s1, labs) →
        threadIndex s1 tid = threadIndex s tid + keptCount labs s1 tid) ∧
    (∀ (addr size : Nat) (lres : LoadResult) (sres : StoreResult)
        (s1 : ShimState) (labs : List Label),
        lres.error ≠ none ∨ lres.is_read_opt = true →
        runOp s tid (.mutexLock addr size lres sres) = .ok (s1, labs) →
        threadIndex s1 tid = threadIndex s tid) ∧
    (∀ (child : Nat) (s1 : ShimState) (labs : List Label),
        runOp s tid (.threadJoin child none) = .ok (s1, labs) →
        threadIndex s1 tid = threadIndex s tid) ∧
    (∀ (child r : Nat) (s1 : ShimState) (labs : List Label),
        runOp s tid (.threadJoin child (some r)) = .ok (s1, labs) →
        threadIndex s1 tid = threadIndex s tid + 1) := by
  refine ⟨?_, ?_, ?_, ?_, ?_⟩
  · intro ops s2 n hrun
    exact (runOps_accounting tid ops s a h s2 n hrun).1
  · intro op s1 labs hrun
    exact (runOp_accounting op s tid a h s1 labs hrun).1
  · intro addr size lres sres s1 labs hab hrun
    rcases hga : getOrAssignAnnot s addr with ⟨aid, sA⟩
    have hgi : sA.globalInstructions = s.globalInstructions := by
      have hg2 := getOrAssignAnnot_globalInstructions s addr
      rw [hga] at hg2
      exact hg2
    have hq : sA.globalInstructions[tid]? = some a := by rw [hgi]; exact h
    have hts : threadIndex sA tid = threadIndex s tid := by
      simp [threadIndex, hgi]
    obtain ⟨h1, h2, h3, h4⟩ :=
      handleMutexLock_cases s tid addr size lres sres aid sA hga a hq
    cases herr : lres.error with
    | some e =>
        simp only [runOp, h1 e herr, Except.map, Except.ok.injEq, Prod.mk.injEq] at hrun
        obtain ⟨rfl, rfl⟩ := hrun
        rw [threadIndex_setThreadEvent hq, ← hts, threadIndex_of_some hq]
        omega
    | none =>
        cases hro : lres.is_read_opt with
        | true =>
            simp only [runOp, h2 herr hro, Except.map, Except.ok.injEq,
              Prod.mk.injEq] at hrun
            obtain ⟨rfl, rfl⟩ := hrun
            rw [threadIndex_setThreadEvent hq, ← hts, threadIndex_of_some hq]
            omega
        | false =>
            rcases hab with hc | hc
            · exact absurd herr hc
            · rw [hro] at hc
              exact Bool.noConfusion hc
  · intro child s1 labs hrun
    simp only [runOp, handleThreadJoin, incPos_ok h,
      decPos_ok (setThreadEvent_getElem? h a (a.event.index + 1)),
      setThreadEvent_setThreadEvent, Bind.bind, Except.bind, Except.map,
      Except.ok.injEq, Prod.mk.injEq] at hrun
    obtain ⟨rfl, rfl⟩ := hrun
    rw [threadIndex_setThreadEvent h, threadIndex_of_some h]
    omega
  · intro child r s1 labs hrun
    simp only [runOp, handleThreadJoin, incPos_ok h, Bind.bind, Except.bind, Except.map,
      Except.ok.injEq, Prod.mk.injEq] at hrun
    obtain ⟨rfl, rfl⟩ := hrun
    rw [threadIndex_setThreadEvent h, threadIndex_of_some h]

/-- C2 witness: starting at the initial state, the sequence fence (one
committed event) then a mutex Lock whose read resolves no value (restored)
then a Join of an unfinished child (restored) runs to completion, commits
one event, and leaves thread 0's event index at 0 + 1. -/
theorem c2_per_thread_position_accounting_witness :
    runOps ShimState.initial 0
      [.fence .Relaxed,
       .mutexLock 100 4 ⟨none, true, GenmcScalar.ofSVal 0⟩ (.ok true),
       .threadJoin 1 none] =
      .ok (⟨[⟨.Load, ⟨0, 1⟩⟩], [], [(100, 0)], 1⟩, 1) ∧
    threadIndex ⟨[⟨.Load, ⟨0, 1⟩⟩], [], [(100, 0)], 1⟩ 0 =
      threadIndex ShimState.initial 0 + 1 :=
  ⟨rfl,
   (c2_per_thread_position_accounting ShimState.initial 0 ⟨.Load, .getInit⟩ rfl).1
     [.fence .Relaxed,
      .mutexLock 100 4 ⟨none, true, GenmcScalar.ofSVal 0⟩ (.ok true),
      .threadJoin 1 none]
     ⟨[⟨.Load, ⟨0, 1⟩⟩], [], [(100, 0)], 1⟩ 1 rfl⟩

end MiriGenmc
